import Mathlib

/-!
# Kustomize build: the resolution engine

A shallow embedding of `pkg/target/kusttarget.go` and `pkg/commands/build.go`.

* Go functions of the two files become Lean functions of the same name.
* Everything the two files import from other packages (loader, resmap
  constructors, transformers, CRD registration, the file system, YAML) is a
  field of `World`; the functions are parametric in it.
* Effects that the statements talk about (loader cleanup, a transformer being
  applied, writes, log lines) are returned as a list of `Event`s, in the order
  in which they happen.
* The recursion through the base hierarchy takes a fuel argument; `none` means
  the fuel ran out.  `hierarchyWithin` says when a given fuel is enough.
* A Go `nil` collection is the empty list: a nil map reads and ranges as an
  empty one.
* A few helpers of other packages are given a body, from the specification's
  words, because statements below depend on what they do: the two merge
  operators of `resmap`, the composite transformer of `transformers`,
  `patch.Append` and `resource.NewResId`.  Each says so in its doc comment.
-/

namespace Kustomize

/-! ## Data model -/

/-- Go `error` values.  `msg` is `errors.New` or `fmt.Errorf`, `wrap` is
`errors.Wrap(cause, ctx)` and `multi` is an `*interror.KustomizationErrors`
returned as an error. -/
inductive Err where
  | msg (s : String)
  | wrap (cause : Err) (ctx : String)
  | multi (errs : List Err)

abbrev Bytes := String

/-- Resource identity: the composite key (group, version, kind, name). -/
structure ResId where
  group : String
  version : String
  kind : String
  name : String
deriving DecidableEq

/-- One resource document; the field tree itself is kept as an uninterpreted
payload, it is only read through `World.getFieldValue` and the transformers. -/
structure Resource where
  id : ResId
  doc : String
deriving DecidableEq

/-- An insertion-ordered collection of resources (`resmap.ResMap`). -/
abbrev ResMap := List Resource

/-- A `loader.Loader`, identified by the root it is scoped to (`Root()`). -/
structure Loader where
  root : String
deriving DecidableEq

/-- The struct `types.Var`: name, object reference and field path. -/
structure Var where
  name : String
  objRef : ResId
  fieldPath : String
deriving DecidableEq

/-- The struct `transformerconfig.TransformerConfig`: one rule list per
transformer that needs one. -/
structure TransformerConfig where
  namePrefix : List String
  nameSpace : List String
  commonLabels : List String
  commonAnnotations : List String
  nameReference : List String
  varReference : List String
deriving DecidableEq

/-- The struct `types.Kustomization`, the fields that the two files read. -/
structure Kustomization where
  namePrefix : String
  nameSpace : String
  commonLabels : List (String × String)
  commonAnnotations : List (String × String)
  resources : List String
  bases : List String
  crds : List String
  configMapGenerator : List String
  secretGenerator : List String
  patchesStrategicMerge : List String
  patches : List String
  patchesJson6902 : List String
  imageTags : List (String × String)
  vars : List Var
deriving DecidableEq

/-- The struct `KustTarget`.  The `fSys` field of the source is part of the
`World`, which every function receives. -/
structure KustTarget where
  kustomization : Kustomization
  ldr : Loader
  tcfg : TransformerConfig
deriving DecidableEq

/-- The struct `buildOptions` of `build.go`; a nil slice is the empty list. -/
structure buildOptions where
  kustomizationPath : String
  outputPath : String
  transformerconfigPaths : List String
deriving DecidableEq

/-- The ten concrete transformers, named after the constructor that makes
each one. -/
inductive TKind where
  | patch
  | nameSpace
  | namePrefix
  | labels
  | annotations
  | patchJson6902
  | imageTag
  | nameHash
  | nameReference
  | refVar
deriving DecidableEq

/-- What `Transform(m)` of one concrete transformer does: the collection after
the in-place edit, or an error. -/
abbrev TransformFn := ResMap → Except Err ResMap

/-- A `transformers.Transformer` value: a concrete transformer, tagged with
its kind, or the composite made by `NewMultiTransformer`. -/
inductive Transformer where
  | leaf (kind : TKind) (f : TransformFn)
  | multi (ts : List Transformer)

/-- A Go `map[string]string`, as an association list with unique keys. -/
abbrev StrMap := List (String × String)

/-- Observable effects, in the order in which they happen. -/
inductive Event where
  | cleanup (ldr : Loader)
  | transform (ldr : Loader) (kind : TKind) (input : ResMap)
  | info (text : String)
  | writeFile (path : String) (content : Bytes)
  | outWrite (content : Bytes)
deriving DecidableEq

/-- How a call ends: it returns, or `log.Fatalf` ends the process. -/
inductive Outcome (α : Type) where
  | returned (a : α)
  | fatal (ctx : String) (err : Err)

/-- The collaborators that the two source files import.  A function that
returns `(value, error)` in Go is an `Except`, and its value on the error side
is read as nil; `RegisterCRDs`, whose value is used even when it reports an
error, returns both. -/
structure World where
  kustomizationFileName : String
  newLoader : String → Except Err Loader
  ldrNew : Loader → String → Except Err Loader
  ldrLoad : Loader → String → Except Err Bytes
  yamlToJSON : Bytes → Except Err Bytes
  jsonDecode : Bytes → Except Err Kustomization
  newResMapFromFiles : Loader → List String → Except Err ResMap
  registerCRDs : Loader → List String → TransformerConfig × Option Err
  tcfgMerge : TransformerConfig → TransformerConfig → TransformerConfig
  newResMapFromConfigMapArgs : Loader → List String → Except Err ResMap
  newResMapFromSecretArgs : String → List String → Except Err ResMap
  newResourceSliceFromPatches : Loader → List String → Except Err (List Resource)
  validId : ResId → Bool
  newPatchTransformer : List Resource → Except Err TransformFn
  newNamespaceTransformer : String → List String → TransformFn
  newNamePrefixTransformer : String → List String → Except Err TransformFn
  newLabelsMapTransformer : List (String × String) → List String → Except Err TransformFn
  newAnnotationsMapTransformer : List (String × String) → List String → Except Err TransformFn
  makePatchJson6902Transformer : Loader → List String → Except Err TransformFn
  newImageTagTransformer : List (String × String) → Except Err TransformFn
  nameHashTransformer : TransformFn
  newNameReferenceTransformer : List String → Except Err TransformFn
  newRefVarTransformer : StrMap → List String → TransformFn
  demandOneMatchForId : ResMap → ResId → Option Resource
  getFieldValue : Resource → String → Except Err String
  defaulting : Var → Var
  fmtVar : Var → String
  encodeAsYaml : ResMap → Except Err Bytes
  isDir : String → Bool
  glob : String → Except Err (List String)
  writeFile : String → Bytes → Option Err
  outWrite : Bytes → Option Err
  makeDefaultTransformerConfig : TransformerConfig
  makeTransformerConfigFromFiles : Loader → List String → Except Err TransformerConfig

/-! ## Small Go idioms -/

/-- The value of a `(value, err)` pair: nil when the call failed. -/
def orNil {α : Type} : Except Err (List α) → List α
  | .ok v => v
  | .error _ => []

/-- The error of a `(value, err)` pair. -/
def errOf {α : Type} : Except Err α → Option Err
  | .ok _ => none
  | .error e => some e

/-- The statement `if err != nil { errs.Append(errors.Wrap(err, ctx)) }`. -/
def appendWrapped (errs : List Err) (err : Option Err) (ctx : String) : List Err :=
  match err with
  | some e => errs ++ [Err.wrap e ctx]
  | none => errs

/-- Assignment `m[k] = v` on a Go map. -/
def mapSet (m : StrMap) (k v : String) : StrMap :=
  m.filter (fun e => decide (e.1 ≠ k)) ++ [(k, v)]

/-- Lookup `m[k]` on a Go map. -/
def mapGet (m : StrMap) (k : String) : Option String :=
  (m.find? (fun e => decide (e.1 = k))).map Prod.snd

/-- Modelled from the spec: the call `resource.NewResId(gvk.FromSchemaGvk(
v.ObjRef.GroupVersionKind()), v.ObjRef.Name)`, the id that a var refers to; a
var's object reference and a resource id both are (group, version, kind, name)
(the gvk and resource packages are not among the sources). -/
def NewResId (v : Var) : ResId := v.objRef

/-! ## ResourceCollection merges -/

/-- The first document of the collection that has the given id. -/
def lookupId (m : ResMap) (id : ResId) : Option Resource :=
  m.find? (fun r => decide (r.id = id))

/-- Whether the collection has a document with the given id. -/
def hasId (m : ResMap) (id : ResId) : Bool :=
  m.any (fun r => decide (r.id = id))

/-- Modelled from the spec: the error of merge-without-override, "a duplicate
id across inputs is an error" (the resmap package is not among the sources). -/
def DuplicateIdError (id : ResId) : Err :=
  Err.msg ("id already used: " ++ id.name)

/-- Modelled from the spec: one input of merge-without-override is added to the
result, entry by entry, and an id that the result already has is an error. -/
def mergeInto : ResMap → ResMap → Except Err ResMap
  | result, [] => .ok result
  | result, r :: rest =>
    if hasId result r.id then .error (DuplicateIdError r.id)
    else mergeInto (result ++ [r]) rest

/-- Modelled from the spec: the loop of merge-without-override over its
inputs. -/
def mergeAll : ResMap → List ResMap → Except Err ResMap
  | result, [] => .ok result
  | result, m :: ms =>
    match mergeInto result m with
    | .error e => .error e
    | .ok result1 => mergeAll result1 ms

/-- Modelled from the spec: `resmap.MergeWithoutOverride`, "concatenating
collections; a duplicate id across inputs is an error", each side keeping its
insertion order (the resmap package is not among the sources). -/
def MergeWithoutOverride (maps : List ResMap) : Except Err ResMap :=
  mergeAll [] maps

/-- Modelled from the spec: an entry replaces the entry of the same id where
that one stands, and is appended when there is none. -/
def setResource : ResMap → Resource → ResMap
  | [], r => [r]
  | x :: xs, r => if x.id = r.id then r :: xs else x :: setResource xs r

/-- Modelled from the spec: `resmap.MergeWithOverride`, "later input's entries
replace earlier entries sharing an id; no error on duplicates", and it "always
errors if overlay contains a document with no valid id"; which ids are valid
is left to the `valid` argument (the resmap package is not among the
sources). -/
def MergeWithOverride (valid : ResId → Bool) : ResMap → ResMap → Except Err ResMap
  | base, [] => .ok base
  | base, r :: rest =>
    if valid r.id then MergeWithOverride valid (setResource base r) rest
    else .error (Err.msg ("no valid id: " ++ r.id.name))

/-- Modelled from the spec: `patch.Append`, "concatenate `patches` into
`patchesStrategicMerge`" (the patch package is not among the sources). -/
def patchAppend (patches more : List String) : List String :=
  patches ++ more

/-! ## Transformers -/

/-- Modelled from the spec: `transformers.NewMultiTransformer`, the composite
transformer over a sequence (the transformers package is not among the
sources). -/
def NewMultiTransformer (r : List Transformer) : Transformer :=
  Transformer.multi r

mutual
/-- Modelled from the spec: `Transform(m)`.  A concrete transformer edits the
collection or fails; a composite one "runs a sequence and stops at the first
error, surfacing it unwrapped to the caller".  The second component lists the
concrete transformers that were applied, each with the collection it was
applied to. -/
def Transformer.transform : Transformer → ResMap → Except Err ResMap × List (TKind × ResMap)
  | .leaf k f, m => (f m, [(k, m)])
  | .multi ts, m => Transformer.transformAll ts m
/-- The loop of a composite transformer over its members. -/
def Transformer.transformAll : List Transformer → ResMap → Except Err ResMap × List (TKind × ResMap)
  | [], m => (.ok m, [])
  | t :: ts, m =>
    match t.transform m with
    | (.ok m1, tr) =>
      match Transformer.transformAll ts m1 with
      | (r, tr1) => (r, tr ++ tr1)
    | (.error e, tr) => (.error e, tr)
end

/-- The events of a transformer run by the target whose loader is `ldr`. -/
def transformEvents (ldr : Loader) (tr : List (TKind × ResMap)) : List Event :=
  tr.map (fun a => Event.transform ldr a.1 a.2)

/-! ## pkg/target/kusttarget.go -/

/-- The function `unmarshal`: YAML to JSON, then a strict JSON decode. -/
def unmarshal (w : World) (y : Bytes) : Except Err Kustomization :=
  match w.yamlToJSON y with
  | .error err => .error err
  | .ok j => w.jsonDecode j

/-- The first half of `NewKustTarget`: load the manifest file through the
loader and decode it. -/
def loadKustomization (w : World) (ldr : Loader) : Except Err Kustomization :=
  match w.ldrLoad ldr w.kustomizationFileName with
  | .error err => .error err
  | .ok content => unmarshal w content

/-- The function `NewKustTarget`. -/
def NewKustTarget (w : World) (ldr : Loader) (tcfg : TransformerConfig) :
    Except Err KustTarget :=
  match loadKustomization w ldr with
  | .error err => .error err
  | .ok m => .ok { kustomization := m, ldr := ldr, tcfg := tcfg }

/-- The method `newTransformer`: the composite of the patch, namespace,
name-prefix, labels and annotations transformers. -/
def newTransformer (w : World) (kt : KustTarget) (patches : List Resource) :
    Except Err Transformer :=
  match w.newPatchTransformer patches with
  | .error err => .error err
  | .ok t1 =>
    let r1 := [Transformer.leaf TKind.patch t1]
    let r2 := r1 ++ [Transformer.leaf TKind.nameSpace
      (w.newNamespaceTransformer kt.kustomization.nameSpace kt.tcfg.nameSpace)]
    match w.newNamePrefixTransformer kt.kustomization.namePrefix kt.tcfg.namePrefix with
    | .error err => .error err
    | .ok t3 =>
      let r3 := r2 ++ [Transformer.leaf TKind.namePrefix t3]
      match w.newLabelsMapTransformer kt.kustomization.commonLabels kt.tcfg.commonLabels with
      | .error err => .error err
      | .ok t4 =>
        let r4 := r3 ++ [Transformer.leaf TKind.labels t4]
        match w.newAnnotationsMapTransformer kt.kustomization.commonAnnotations
            kt.tcfg.commonAnnotations with
        | .error err => .error err
        | .ok t5 =>
          let r5 := r4 ++ [Transformer.leaf TKind.annotations t5]
          .ok (NewMultiTransformer r5)

/-- What one resolution returns: the collection or an error, the target as the
call left it (its `tcfg` and `patchesStrategicMerge` are assigned to), and the
events. -/
abbrev Resolved := Except Err ResMap × KustTarget × List Event

/-- The loop of `loadCustomizedBases` over the declared bases, with its locals
`list` and `errs`; `resolve` is the recursive call `loadCustomizedResMap` on a
base target. -/
def loadCustomizedBasesLoop (resolve : KustTarget → Option Resolved) (w : World)
    (kt : KustTarget) :
    List String → List ResMap → List Err → List Event →
      Option (List ResMap × List Err × List Event)
  | [], list, errs, evs => some (list, errs, evs)
  | path :: rest, list, errs, evs =>
    match w.ldrNew kt.ldr path with
    | .error err =>
      loadCustomizedBasesLoop resolve w kt rest list
        (errs ++ [Err.wrap err ("couldn't make ldr for " ++ path)]) evs
    | .ok ldr =>
      match NewKustTarget w ldr kt.tcfg with
      | .error err =>
        loadCustomizedBasesLoop resolve w kt rest list
          (errs ++ [Err.wrap err ("couldn't make target for " ++ path)]) evs
      | .ok target =>
        match resolve target with
        | none => none
        | some (.error err, _, evs1) =>
          loadCustomizedBasesLoop resolve w kt rest list
            (errs ++ [Err.wrap err "SemiResources"]) (evs ++ evs1)
        | some (.ok resMap, _, evs1) =>
          loadCustomizedBasesLoop resolve w kt rest (list ++ [resMap]) errs
            (evs ++ evs1 ++ [Event.cleanup ldr])

/-- The method `loadCustomizedBases`, over the recursive call `resolve`: the
merged collection of the bases (nil when the merge failed) and the collected
errors. -/
def loadCustomizedBasesWith (resolve : KustTarget → Option Resolved) (w : World)
    (kt : KustTarget) : Option (ResMap × List Err × List Event) :=
  match loadCustomizedBasesLoop resolve w kt kt.kustomization.bases [] [] [] with
  | none => none
  | some (list, errs, evs) =>
    match MergeWithoutOverride list with
    | .error err => some ([], errs ++ [Err.wrap err "Merge failed"], evs)
    | .ok result => some (result, errs, evs)

/-- The method `loadResMapFromBasesAndResources`, over the recursive call. -/
def loadResMapFromBasesAndResourcesWith (resolve : KustTarget → Option Resolved)
    (w : World) (kt : KustTarget) : Option (Except Err ResMap × List Event) :=
  match loadCustomizedBasesWith resolve w kt with
  | none => none
  | some (bases, errs, evs) =>
    let resources := w.newResMapFromFiles kt.ldr kt.kustomization.resources
    let errs1 := appendWrapped errs (errOf resources) "rawResources failed to read Resources"
    if errs1.length > 0 then some (.error (Err.multi errs1), evs)
    else some (MergeWithoutOverride [orNil resources, bases], evs)

/-- The assignment `kt.kustomization.PatchesStrategicMerge = patch.Append(
kt.kustomization.PatchesStrategicMerge, kt.kustomization.Patches...)`. -/
def appendPatches (k : Kustomization) : Kustomization :=
  { k with patchesStrategicMerge := patchAppend k.patchesStrategicMerge k.patches }

/-- The loading phase of `loadCustomizedResMap` (up to the test of `errs`),
over the recursive call: on success the accumulated collection `result` and
the loaded `patches`. -/
def loadPhaseWith (resolve : KustTarget → Option Resolved) (w : World)
    (kt : KustTarget) :
    Option (Except Err (ResMap × List Resource) × KustTarget × List Event) :=
  match loadResMapFromBasesAndResourcesWith resolve w kt with
  | none => none
  | some (r0, evs) =>
    let errs0 := appendWrapped [] (errOf r0) "loadResMapFromBasesAndResources"
    let crd := w.registerCRDs kt.ldr kt.kustomization.crds
    let kt1 : KustTarget := { kt with tcfg := w.tcfgMerge kt.tcfg crd.1 }
    let errs1 := appendWrapped errs0 crd.2 "RegisterCRDs"
    let cms := w.newResMapFromConfigMapArgs kt1.ldr kt1.kustomization.configMapGenerator
    let errs2 := appendWrapped errs1 (errOf cms) "NewResMapFromConfigMapArgs"
    let secrets := w.newResMapFromSecretArgs kt1.ldr.root kt1.kustomization.secretGenerator
    let errs3 := appendWrapped errs2 (errOf secrets) "NewResMapFromSecretArgs"
    match MergeWithoutOverride [orNil cms, orNil secrets] with
    | .error err => some (.error (Err.wrap err "Merge"), kt1, evs)
    | .ok res =>
      match MergeWithOverride w.validId (orNil r0) res with
      | .error err => some (.error err, kt1, evs)
      | .ok result =>
        let kt2 : KustTarget := { kt1 with kustomization := appendPatches kt1.kustomization }
        let patches := w.newResourceSliceFromPatches kt2.ldr
          kt2.kustomization.patchesStrategicMerge
        let errs4 := appendWrapped errs3 (errOf patches) "NewResourceSliceFromPatches"
        if errs4.length > 0 then some (.error (Err.multi errs4), kt2, evs)
        else some (.ok (result, orNil patches), kt2, evs)

/-- The transformer phase of `loadCustomizedResMap` (after the test of
`errs`): build the three members of the pipeline, then run them on
`result`. -/
def transformPhase (w : World) (kt : KustTarget) (result : ResMap)
    (patches : List Resource) : Except Err ResMap × List Event :=
  match newTransformer w kt patches with
  | .error err => (.error err, [])
  | .ok t1 =>
    match w.makePatchJson6902Transformer kt.ldr kt.kustomization.patchesJson6902 with
    | .error err => (.error err, [])
    | .ok t2 =>
      match w.newImageTagTransformer kt.kustomization.imageTags with
      | .error err => (.error err, [])
      | .ok t3 =>
        let r := [t1, Transformer.leaf TKind.patchJson6902 t2, Transformer.leaf TKind.imageTag t3]
        match (NewMultiTransformer r).transform result with
        | (.error err, tr) => (.error err, transformEvents kt.ldr tr)
        | (.ok m, tr) => (.ok m, transformEvents kt.ldr tr)

/-- The method `loadCustomizedResMap`, over the recursive call: the loading
phase, then the transformer phase. -/
def loadCustomizedResMapWith (resolve : KustTarget → Option Resolved) (w : World)
    (kt : KustTarget) : Option Resolved :=
  match loadPhaseWith resolve w kt with
  | none => none
  | some (.error err, kt1, evs) => some (.error err, kt1, evs)
  | some (.ok (result, patches), kt1, evs) =>
    match transformPhase w kt1 result patches with
    | (r, evs1) => some (r, kt1, evs ++ evs1)

/-- The method `loadCustomizedResMap`.  Fuel `n + 1` lets the hierarchy below
the target be `n` levels deep. -/
def loadCustomizedResMap : Nat → World → KustTarget → Option Resolved
  | 0, _, _ => none
  | n + 1, w, kt => loadCustomizedResMapWith (loadCustomizedResMap n w) w kt

/-- The method `loadCustomizedBases` of a target whose bases are resolved with
fuel `n`. -/
def loadCustomizedBases (n : Nat) (w : World) (kt : KustTarget) :
    Option (ResMap × List Err × List Event) :=
  loadCustomizedBasesWith (loadCustomizedResMap n w) w kt

/-- The method `loadResMapFromBasesAndResources` of a target whose bases are
resolved with fuel `n`. -/
def loadResMapFromBasesAndResources (n : Nat) (w : World) (kt : KustTarget) :
    Option (Except Err ResMap × List Event) :=
  loadResMapFromBasesAndResourcesWith (loadCustomizedResMap n w) w kt

/-- The loading phase of `loadCustomizedResMap` of a target whose bases are
resolved with fuel `n`. -/
def loadPhase (n : Nat) (w : World) (kt : KustTarget) :
    Option (Except Err (ResMap × List Resource) × KustTarget × List Event) :=
  loadPhaseWith (loadCustomizedResMap n w) w kt

/-- The loop of `loadBasesAsFlatList` over the declared bases. -/
def loadBasesAsFlatListLoop (w : World) (kt : KustTarget) :
    List String → List KustTarget → List Err → List KustTarget × List Err
  | [], result, errs => (result, errs)
  | path :: rest, result, errs =>
    match w.ldrNew kt.ldr path with
    | .error err => loadBasesAsFlatListLoop w kt rest result (errs ++ [err])
    | .ok ldr =>
      match NewKustTarget w ldr kt.tcfg with
      | .error err => loadBasesAsFlatListLoop w kt rest result (errs ++ [err])
      | .ok target => loadBasesAsFlatListLoop w kt rest (result ++ [target]) errs

/-- The method `loadBasesAsFlatList`. -/
def loadBasesAsFlatList (w : World) (kt : KustTarget) : Except Err (List KustTarget) :=
  match loadBasesAsFlatListLoop w kt kt.kustomization.bases [] [] with
  | (result, errs) =>
    if errs.length > 0 then .error (Err.multi errs) else .ok result

/-- The first loop of `getAllVars`, over the base targets; `collect` is the
recursive call `getAllVars` on a base. -/
def getAllVarsLoop (collect : KustTarget → Option (Except Err (List Var) × List Event)) :
    List KustTarget → List Var → List Err → List Event →
      Option (List Var × List Err × List Event)
  | [], result, errs, evs => some (result, errs, evs)
  | b :: rest, result, errs, evs =>
    match collect b with
    | none => none
    | some (.error err, evs1) =>
      getAllVarsLoop collect rest result (errs ++ [err]) (evs ++ evs1)
    | some (.ok vars, evs1) =>
      getAllVarsLoop collect rest (result ++ vars) errs (evs ++ evs1 ++ [Event.cleanup b.ldr])

/-- The method `getAllVars`, over the recursive call. -/
def getAllVarsWith (collect : KustTarget → Option (Except Err (List Var) × List Event))
    (w : World) (kt : KustTarget) : Option (Except Err (List Var) × List Event) :=
  match loadBasesAsFlatList w kt with
  | .error err => some (.error err, [])
  | .ok bases =>
    match getAllVarsLoop collect bases [] [] [] with
    | none => none
    | some (result, errs, evs) =>
      let result1 := kt.kustomization.vars.foldl (fun acc v => acc ++ [w.defaulting v]) result
      if errs.length > 0 then some (.error (Err.multi errs), evs)
      else some (.ok result1, evs)

/-- The method `getAllVars`. -/
def getAllVars : Nat → World → KustTarget → Option (Except Err (List Var) × List Event)
  | 0, _, _ => none
  | n + 1, w, kt => getAllVarsWith (getAllVars n w) w kt

/-- The loop of `resolveRefVars` over the vars, with its local `result`. -/
def resolveRefVarsLoop (w : World) (m : ResMap) :
    List Var → StrMap → List Event → Except Err StrMap × List Event
  | [], result, evs => (.ok result, evs)
  | v :: rest, result, evs =>
    match w.demandOneMatchForId m (NewResId v) with
    | some r =>
      match w.getFieldValue r v.fieldPath with
      | .error _ =>
        (.error (Err.msg ("failed to resolve referred var: " ++ w.fmtVar v)), evs)
      | .ok s => resolveRefVarsLoop w m rest (mapSet result v.name s) evs
    | none =>
      resolveRefVarsLoop w m rest result
        (evs ++ [Event.info ("couldn't resolve v: " ++ w.fmtVar v)])

/-- The method `resolveRefVars`. -/
def resolveRefVars (n : Nat) (w : World) (kt : KustTarget) (m : ResMap) :
    Option (Except Err StrMap × List Event) :=
  match getAllVars n w kt with
  | none => none
  | some (.error err, evs) => some (.error err, evs)
  | some (.ok vars, evs) => some (resolveRefVarsLoop w m vars [] evs)

/-- The method `resolveRefsToGeneratedResources`. -/
def resolveRefsToGeneratedResources (n : Nat) (w : World) (kt : KustTarget) (m : ResMap) :
    Option (Except Err ResMap × List Event) :=
  match w.nameHashTransformer m with
  | .error err => some (.error err, [Event.transform kt.ldr TKind.nameHash m])
  | .ok m1 =>
    match w.newNameReferenceTransformer kt.tcfg.nameReference with
    | .error err => some (.error err, [Event.transform kt.ldr TKind.nameHash m])
    | .ok t1 =>
      match resolveRefVars n w kt m1 with
      | none => none
      | some (.error err, evs) =>
        some (.error err, [Event.transform kt.ldr TKind.nameHash m] ++ evs)
      | some (.ok refVars, evs) =>
        let t2 := w.newRefVarTransformer refVars kt.tcfg.varReference
        let r := [Transformer.leaf TKind.nameReference t1, Transformer.leaf TKind.refVar t2]
        match (NewMultiTransformer r).transform m1 with
        | (.error err, tr) =>
          some (.error err,
            [Event.transform kt.ldr TKind.nameHash m] ++ evs ++ transformEvents kt.ldr tr)
        | (.ok m2, tr) =>
          some (.ok m2,
            [Event.transform kt.ldr TKind.nameHash m] ++ evs ++ transformEvents kt.ldr tr)

/-- The method `MakeCustomizedResMap`. -/
def MakeCustomizedResMap (n : Nat) (w : World) (kt : KustTarget) : Option Resolved :=
  match loadCustomizedResMap n w kt with
  | none => none
  | some (.error err, kt1, evs) => some (.error err, kt1, evs)
  | some (.ok m, kt1, evs) =>
    match resolveRefsToGeneratedResources n w kt1 m with
    | none => none
    | some (r, evs1) => some (r, kt1, evs ++ evs1)

/-! ## pkg/commands/build.go -/

/-- The method `Validate`: the error it returns and the options as it leaves
them. -/
def Validate (w : World) (o : buildOptions) (args : List String) (p : String) :
    Option Err × buildOptions :=
  if args.length > 1 then
    (some (Err.msg ("specify one path to " ++ w.kustomizationFileName)), o)
  else if args.length = 0 then
    (none, { o with kustomizationPath := "./" })
  else
    let o1 : buildOptions := { o with kustomizationPath := args.headD "" }
    if p = "" then (none, o1)
    else if w.isDir p then
      match w.glob (p ++ "/*") with
      | .error err => (some err, o1)
      | .ok paths => (none, { o1 with transformerconfigPaths := paths })
    else (none, { o1 with transformerconfigPaths := p.splitOn "," })

/-- The function `makeTransformerconfig`. -/
def makeTransformerconfig (w : World) (paths : List String) : Outcome TransformerConfig :=
  match w.newLoader "." with
  | .error err =>
    Outcome.fatal "error creating loader to load transformer configurations" err
  | .ok ldr =>
    if paths.length = 0 then Outcome.returned w.makeDefaultTransformerConfig
    else
      match w.makeTransformerConfigFromFiles ldr paths with
      | .error err => Outcome.fatal "failed to load transformer configrations" err
      | .ok t => Outcome.returned t

/-- The method `RunBuild`.  The deferred `rootLoader.Cleanup()` runs at every
return that follows the creation of the root loader. -/
def RunBuild (n : Nat) (w : World) (o : buildOptions) :
    Option (Outcome (Option Err) × List Event) :=
  match w.newLoader o.kustomizationPath with
  | .error err => some (Outcome.returned (some err), [])
  | .ok rootLoader =>
    match makeTransformerconfig w o.transformerconfigPaths with
    | .fatal ctx err => some (Outcome.fatal ctx err, [])
    | .returned tcfg =>
      match NewKustTarget w rootLoader tcfg with
      | .error err => some (Outcome.returned (some err), [Event.cleanup rootLoader])
      | .ok target =>
        match MakeCustomizedResMap n w target with
        | none => none
        | some (.error err, _, evs) =>
          some (Outcome.returned (some err), evs ++ [Event.cleanup rootLoader])
        | some (.ok allResources, _, evs) =>
          match w.encodeAsYaml allResources with
          | .error err =>
            some (Outcome.returned (some err), evs ++ [Event.cleanup rootLoader])
          | .ok res =>
            if o.outputPath ≠ "" then
              some (Outcome.returned (w.writeFile o.outputPath res),
                evs ++ [Event.writeFile o.outputPath res, Event.cleanup rootLoader])
            else
              some (Outcome.returned (w.outWrite res),
                evs ++ [Event.outWrite res, Event.cleanup rootLoader])

/-! ## Specification-side definitions -/

/-- Sequential application with first-failure semantics: apply the listed
transformers in order, stop at the first one that fails and return its error.
The second component lists the transformers that were applied, the failing one
included, each with the collection it was applied to. -/
def applyInOrder : List (TKind × TransformFn) → ResMap → Except Err ResMap × List (TKind × ResMap)
  | [], m => (.ok m, [])
  | (k, f) :: rest, m =>
    match f m with
    | .error e => (.error e, [(k, m)])
    | .ok m1 => ((applyInOrder rest m1).1, (k, m) :: (applyInOrder rest m1).2)

/-- The local pipeline as a flat list: strategic-merge patch, namespace,
name-prefix, common-labels, common-annotations, JSON-patch (6902), image-tag.
It is an error when one of the six constructors that can fail does; the first
such error, in this order, is the one reported. -/
def localPipeline (w : World) (kt : KustTarget) (patches : List Resource) :
    Except Err (List (TKind × TransformFn)) :=
  match w.newPatchTransformer patches with
  | .error e => .error e
  | .ok f1 =>
  match w.newNamePrefixTransformer kt.kustomization.namePrefix kt.tcfg.namePrefix with
  | .error e => .error e
  | .ok f3 =>
  match w.newLabelsMapTransformer kt.kustomization.commonLabels kt.tcfg.commonLabels with
  | .error e => .error e
  | .ok f4 =>
  match w.newAnnotationsMapTransformer kt.kustomization.commonAnnotations
      kt.tcfg.commonAnnotations with
  | .error e => .error e
  | .ok f5 =>
  match w.makePatchJson6902Transformer kt.ldr kt.kustomization.patchesJson6902 with
  | .error e => .error e
  | .ok f6 =>
  match w.newImageTagTransformer kt.kustomization.imageTags with
  | .error e => .error e
  | .ok f7 =>
    .ok [(TKind.patch, f1),
      (TKind.nameSpace, w.newNamespaceTransformer kt.kustomization.nameSpace kt.tcfg.nameSpace),
      (TKind.namePrefix, f3), (TKind.labels, f4), (TKind.annotations, f5),
      (TKind.patchJson6902, f6), (TKind.imageTag, f7)]

/-- The kinds of the transformers applied in a run, in order. -/
def appliedKinds : List Event → List TKind
  | [] => []
  | Event.transform _ k _ :: rest => k :: appliedKinds rest
  | _ :: rest => appliedKinds rest

/-- The hierarchy below a target is at most `n` levels deep: fuel `n` is enough
to resolve a target with this loader and manifest.  A base whose loader or
manifest cannot be created has nothing below it. -/
def hierarchyWithin (w : World) : Nat → Loader → Kustomization → Bool
  | 0, _, _ => false
  | n + 1, ldr, k =>
    k.bases.all (fun path =>
      match w.ldrNew ldr path with
      | .error _ => true
      | .ok l =>
        match loadKustomization w l with
        | .error _ => true
        | .ok k1 => hierarchyWithin w n l k1)

/-- The entry that a failed step adds to the error list. -/
def entry (err : Option Err) (ctx : String) : List Err :=
  match err with
  | some e => [Err.wrap e ctx]
  | none => []

/-- The aggregated error list of the loading phase: one context-wrapped entry
for each failing sub-operation, in the order in which they are attempted.
`r0` is what loading the bases and resources returned. -/
def loadingFailures (w : World) (kt : KustTarget) (r0 : Except Err ResMap) : List Err :=
  entry (errOf r0) "loadResMapFromBasesAndResources"
    ++ entry (w.registerCRDs kt.ldr kt.kustomization.crds).2 "RegisterCRDs"
    ++ entry (errOf (w.newResMapFromConfigMapArgs kt.ldr kt.kustomization.configMapGenerator))
        "NewResMapFromConfigMapArgs"
    ++ entry (errOf (w.newResMapFromSecretArgs kt.ldr.root kt.kustomization.secretGenerator))
        "NewResMapFromSecretArgs"
    ++ entry (errOf (w.newResourceSliceFromPatches kt.ldr
          (patchAppend kt.kustomization.patchesStrategicMerge kt.kustomization.patches)))
        "NewResourceSliceFromPatches"

/-- The target after `kt.tcfg = kt.tcfg.Merge(crdPathConfigs)`. -/
def afterCRDs (w : World) (kt : KustTarget) : KustTarget :=
  { kt with tcfg := w.tcfgMerge kt.tcfg (w.registerCRDs kt.ldr kt.kustomization.crds).1 }

/-- The target after the loading phase ran to its end: the CRD rules merged
into `tcfg` and `patches` appended to `patchesStrategicMerge`. -/
def afterLoading (w : World) (kt : KustTarget) : KustTarget :=
  { afterCRDs w kt with kustomization := appendPatches kt.kustomization }

/-- The events of a call, none when it did not return. -/
def eventsOf {α : Type} : Option (α × List Event) → List Event
  | some (_, evs) => evs
  | none => []

/-- The entry that one declared base adds to the error list when it fails:
its loader cannot be created, its manifest cannot be loaded, or its own
resolution (`resolve`) returns an error. -/
def baseFailureWith (resolve : KustTarget → Option Resolved) (w : World) (kt : KustTarget)
    (path : String) : Option Err :=
  match w.ldrNew kt.ldr path with
  | .error e => some (Err.wrap e ("couldn't make ldr for " ++ path))
  | .ok l =>
    match NewKustTarget w l kt.tcfg with
    | .error e => some (Err.wrap e ("couldn't make target for " ++ path))
    | .ok target =>
      match resolve target with
      | some (.error e, _, _) => some (Err.wrap e "SemiResources")
      | _ => none

/-- The collection that one declared base contributes when it resolves. -/
def baseSuccessWith (resolve : KustTarget → Option Resolved) (w : World) (kt : KustTarget)
    (path : String) : Option ResMap :=
  match w.ldrNew kt.ldr path with
  | .error _ => none
  | .ok l =>
    match NewKustTarget w l kt.tcfg with
    | .error _ => none
    | .ok target =>
      match resolve target with
      | some (.ok m, _, _) => some m
      | _ => none

/-- The events of one pass of the loop of `loadCustomizedBases`: those of the
base's own resolution, followed by the cleanup of its loader when the
resolution succeeded. -/
def baseEventsWith (resolve : KustTarget → Option Resolved) (w : World) (kt : KustTarget)
    (path : String) : List Event :=
  match w.ldrNew kt.ldr path with
  | .error _ => []
  | .ok l =>
    match NewKustTarget w l kt.tcfg with
    | .error _ => []
    | .ok target =>
      match resolve target with
      | some (.error _, _, evs) => evs
      | some (.ok _, _, evs) => evs ++ [Event.cleanup l]
      | none => []

/-- The entry of a failed base whose resolution runs with fuel `n`. -/
def baseFailure (n : Nat) (w : World) (kt : KustTarget) (path : String) : Option Err :=
  baseFailureWith (loadCustomizedResMap n w) w kt path

/-- The collection of a resolved base whose resolution runs with fuel `n`. -/
def baseSuccess (n : Nat) (w : World) (kt : KustTarget) (path : String) : Option ResMap :=
  baseSuccessWith (loadCustomizedResMap n w) w kt path

/-- The three reference-fixup transformers: name-hash, name-reference and
variable substitution. -/
def TKind.isFixup : TKind → Bool
  | .nameHash => true
  | .nameReference => true
  | .refVar => true
  | _ => false

/-- The event is the application of a reference-fixup transformer. -/
def Event.isFixup : Event → Bool
  | .transform _ k _ => k.isFixup
  | _ => false

/-- The event is the application of a transformer. -/
def Event.isTransform : Event → Bool
  | .transform _ _ _ => true
  | _ => false

/-- The event is a write, to the file system or to the output stream. -/
def Event.isWrite : Event → Bool
  | .writeFile _ _ => true
  | .outWrite _ => true
  | _ => false

/-- The event is one that resolving a level produces: the cleanup of a
loader, or the application of one of the seven local transformers. -/
def Event.isLoading : Event → Bool
  | .cleanup _ => true
  | .transform _ k _ => !k.isFixup
  | _ => false

/-- The event is the cleanup of a loader. -/
def Event.isCleanup : Event → Bool
  | .cleanup _ => true
  | _ => false

/-- The event is a log line. -/
def Event.isInfo : Event → Bool
  | .info _ => true
  | _ => false

/-- The loaders cleaned up in a run, in order. -/
def cleanups : List Event → List Loader
  | [] => []
  | Event.cleanup l :: rest => l :: cleanups rest
  | _ :: rest => cleanups rest

/-- Every loader and manifest of the hierarchy below the target can be created,
and the hierarchy is at most `n` levels deep. -/
def allLoadable (w : World) : Nat → Loader → Kustomization → Bool
  | 0, _, _ => false
  | n + 1, ldr, k =>
    k.bases.all (fun path =>
      match w.ldrNew ldr path with
      | .error _ => false
      | .ok l =>
        match loadKustomization w l with
        | .error _ => false
        | .ok k1 => allLoadable w n l k1)

/-- The post-order list of the vars of a hierarchy: for each declared base, in
declaration order, the post-order list of that base; then the vars that the
manifest itself declares, each after defaulting, in declaration order. -/
def postOrderVars (w : World) : Nat → Loader → Kustomization → List Var
  | 0, _, _ => []
  | n + 1, ldr, k =>
    (k.bases.map (fun path =>
      match w.ldrNew ldr path with
      | .error _ => []
      | .ok l =>
        match loadKustomization w l with
        | .error _ => []
        | .ok k1 => postOrderVars w n l k1)).flatten
      ++ k.vars.map w.defaulting

/-- The target that `loadBasesAsFlatList` makes for one declared base. -/
def flatTarget (w : World) (kt : KustTarget) (path : String) : Option KustTarget :=
  match w.ldrNew kt.ldr path with
  | .error _ => none
  | .ok l =>
    match NewKustTarget w l kt.tcfg with
    | .error _ => none
    | .ok target => some target

/-- The error that `loadBasesAsFlatList` collects for one declared base. -/
def flatError (w : World) (kt : KustTarget) (path : String) : Option Err :=
  match w.ldrNew kt.ldr path with
  | .error e => some e
  | .ok l =>
    match NewKustTarget w l kt.tcfg with
    | .error e => some e
    | .ok _ => none

/-- The events of a resolution, none when it did not return. -/
def resolvedEvents : Option Resolved → List Event
  | some (_, _, evs) => evs
  | none => []

/-- The value that a var resolves to in the collection: the value read at its
field path on the resource that its object reference is matched to; none when
no resource is matched or the field cannot be read. -/
def varValue (w : World) (m : ResMap) (v : Var) : Option String :=
  match w.demandOneMatchForId m (NewResId v) with
  | none => none
  | some x =>
    match w.getFieldValue x v.fieldPath with
    | .ok s => some s
    | .error _ => none

/-- The value of the last var of the list that is named `name` and resolves to
a value. -/
def lastBinding (w : World) (m : ResMap) : List Var → String → Option String
  | [], _ => none
  | v :: rest, name =>
    match lastBinding w m rest name with
    | some s => some s
    | none => if v.name = name then varValue w m v else none

/-- The writes of a run, in order. -/
def writes (evs : List Event) : List Event :=
  evs.filter Event.isWrite

/-! ## Example worlds -/

/-- A transformer configuration without rules. -/
def emptyConfig : TransformerConfig :=
  { namePrefix := [], nameSpace := [], commonLabels := [], commonAnnotations := [],
    nameReference := [], varReference := [] }

/-- A manifest that declares nothing. -/
def emptyKustomization : Kustomization :=
  { namePrefix := "", nameSpace := "", commonLabels := [], commonAnnotations := [],
    resources := [], bases := [], crds := [], configMapGenerator := [],
    secretGenerator := [], patchesStrategicMerge := [], patches := [],
    patchesJson6902 := [], imageTags := [], vars := [] }

/-- A transformer that appends a mark to every document, so that the result
shows which transformers ran and in which order. -/
def mark (s : String) : TransformFn :=
  fun m => .ok (m.map (fun r => { r with doc := r.doc ++ s }))

/-- The resource named `name` of kind `kind` in group `""`, version `v1`. -/
def res (kind name doc : String) : Resource :=
  { id := { group := "", version := "v1", kind := kind, name := name }, doc := doc }

/-- A world in which every collaborator succeeds: loaders are named by path,
each resource file `f` holds the one document `Deployment f`, every manifest
declares nothing, generators produce nothing, and each transformer appends its
mark. -/
def quietWorld : World :=
  { kustomizationFileName := "kustomization.yaml"
    newLoader := fun path => .ok { root := path }
    ldrNew := fun l path => .ok { root := l.root ++ "/" ++ path }
    ldrLoad := fun l _ => .ok l.root
    yamlToJSON := fun y => .ok y
    jsonDecode := fun _ => .ok emptyKustomization
    newResMapFromFiles := fun _ files => .ok (files.map (fun f => res "Deployment" f "doc"))
    registerCRDs := fun _ _ => (emptyConfig, none)
    tcfgMerge := fun a b =>
      { namePrefix := a.namePrefix ++ b.namePrefix, nameSpace := a.nameSpace ++ b.nameSpace,
        commonLabels := a.commonLabels ++ b.commonLabels,
        commonAnnotations := a.commonAnnotations ++ b.commonAnnotations,
        nameReference := a.nameReference ++ b.nameReference,
        varReference := a.varReference ++ b.varReference }
    newResMapFromConfigMapArgs := fun _ args => .ok (args.map (fun a => res "ConfigMap" a "cm"))
    newResMapFromSecretArgs := fun _ args => .ok (args.map (fun a => res "Secret" a "secret"))
    newResourceSliceFromPatches := fun _ ps => .ok (ps.map (fun a => res "Deployment" a "patch"))
    validId := fun _ => true
    newPatchTransformer := fun _ => .ok (mark "+patch")
    newNamespaceTransformer := fun _ _ => mark "+ns"
    newNamePrefixTransformer := fun _ _ => .ok (mark "+pre")
    newLabelsMapTransformer := fun _ _ => .ok (mark "+lab")
    newAnnotationsMapTransformer := fun _ _ => .ok (mark "+ann")
    makePatchJson6902Transformer := fun _ _ => .ok (mark "+json")
    newImageTagTransformer := fun _ => .ok (mark "+img")
    nameHashTransformer := mark "+hash"
    newNameReferenceTransformer := fun _ => .ok (mark "+ref")
    newRefVarTransformer := fun _ _ => mark "+var"
    demandOneMatchForId := fun m id =>
      match m.filter (fun r => decide (r.id = id)) with
      | [r] => some r
      | _ => none
    getFieldValue := fun r path =>
      if path = "metadata.name" then .ok r.id.name
      else if path = "doc" then .ok r.doc
      else .error (Err.msg ("no field " ++ path))
    defaulting := fun v => if v.fieldPath = "" then { v with fieldPath := "metadata.name" } else v
    fmtVar := fun v => v.name
    encodeAsYaml := fun m => .ok (String.join (m.map (fun r => r.id.name ++ ":" ++ r.doc ++ ";")))
    isDir := fun _ => false
    glob := fun _ => .ok []
    writeFile := fun _ _ => none
    outWrite := fun _ => none
    makeDefaultTransformerConfig := emptyConfig
    makeTransformerConfigFromFiles := fun _ _ => .ok emptyConfig }

/-- A target rooted at `app` that declares the one resource file
`deploy.yaml`. -/
def appTarget : KustTarget :=
  { kustomization := { emptyKustomization with resources := ["deploy.yaml"] }
    ldr := { root := "app" }
    tcfg := emptyConfig }

/-- The quiet world, except that the image-tag transformer cannot be built. -/
def badImageTagWorld : World :=
  { quietWorld with newImageTagTransformer := fun _ => .error (Err.msg "bad image tag") }

/-- The quiet world, except that the resource files cannot be read and the CRD
registration reports an error. -/
def brokenLoadingWorld : World :=
  { quietWorld with
    newResMapFromFiles := fun _ _ => .error (Err.msg "no such file")
    registerCRDs := fun _ _ => (emptyConfig, some (Err.msg "bad crd")) }

/-- The quiet world, except that the CRD registration reports an error and both
generators produce documents of the one kind `Generated`. -/
def collidingGeneratorsWorld : World :=
  { quietWorld with
    registerCRDs := fun _ _ => (emptyConfig, some (Err.msg "bad crd"))
    newResMapFromConfigMapArgs := fun _ args => .ok (args.map (fun a => res "Generated" a "cm"))
    newResMapFromSecretArgs := fun _ args =>
      .ok (args.map (fun a => res "Generated" a "secret")) }

/-- A target rooted at `app` whose two generators are both asked for a
document named `shared`. -/
def sharedNameTarget : KustTarget :=
  { kustomization :=
      { emptyKustomization with configMapGenerator := ["shared"], secretGenerator := ["shared"] }
    ldr := { root := "app" }
    tcfg := emptyConfig }

/-- A var named `name` that refers to the resource `kind`/`target`. -/
def var (name kind target fieldPath : String) : Var :=
  { name := name
    objRef := { group := "", version := "v1", kind := kind, name := target }
    fieldPath := fieldPath }

/-- The manifests of the layered example, by the root of the loader that reads
them: `app/base` (with the nested base `inner`), `app/other` and `app/dup`,
whose resource list names one file twice. -/
def layeredManifest (root : String) : Kustomization :=
  if root = "app/base" then
    { emptyKustomization with
      bases := ["inner"], resources := ["deploy.yaml"], configMapGenerator := ["cfg"],
      vars := [var "SVC" "Deployment" "deploy.yaml" "doc"] }
  else if root = "app/base/inner" then
    { emptyKustomization with
      resources := ["db.yaml"], vars := [var "INNER" "Deployment" "db.yaml" "metadata.name"] }
  else if root = "app/other" then
    { emptyKustomization with
      resources := ["job.yaml"], vars := [var "DB" "Deployment" "job.yaml" ""] }
  else if root = "app/dup" then
    { emptyKustomization with resources := ["a.yaml", "a.yaml"] }
  else emptyKustomization

/-- The layered example: the quiet world with the manifests of
`layeredManifest`; the directory `app/missing` has no manifest file. -/
def layeredWorld : World :=
  { quietWorld with
    ldrLoad := fun l _ =>
      if l.root = "app/missing" then .error (Err.msg "no kustomization.yaml") else .ok l.root
    jsonDecode := fun j => .ok (layeredManifest j) }

/-- The root of the layered example: the overlay `app` over the bases `base`
and `other`, with one resource file, one generated ConfigMap named like the one
that `base` generates, and one var. -/
def overlayTarget : KustTarget :=
  { kustomization :=
      { emptyKustomization with
        bases := ["base", "other"], resources := ["svc.yaml"], configMapGenerator := ["cfg"],
        vars := [var "TOP" "Deployment" "svc.yaml" "doc"] }
    ldr := { root := "app" }
    tcfg := emptyConfig }

/-- A parent `app` over three bases: `missing` has no manifest, `other`
resolves, `dup` fails in its own resolution. -/
def failingBasesTarget : KustTarget :=
  { kustomization := { emptyKustomization with bases := ["missing", "other", "dup"] }
    ldr := { root := "app" }
    tcfg := emptyConfig }

/-- What the bases `base` and `other` of the overlay resolve to, merged. -/
def overlayBases : ResMap :=
  [res "Deployment" "deploy.yaml" "doc+patch+ns+pre+lab+ann+json+img",
    res "Deployment" "db.yaml" "doc+patch+ns+pre+lab+ann+json+img+patch+ns+pre+lab+ann+json+img",
    res "ConfigMap" "cfg" "cm+patch+ns+pre+lab+ann+json+img",
    res "Deployment" "job.yaml" "doc+patch+ns+pre+lab+ann+json+img"]

/-- The overlay's collection once its generated ConfigMap `cfg` has been merged
with override. -/
def overlayMerged : ResMap :=
  [res "Deployment" "svc.yaml" "doc",
    res "Deployment" "deploy.yaml" "doc+patch+ns+pre+lab+ann+json+img",
    res "Deployment" "db.yaml" "doc+patch+ns+pre+lab+ann+json+img+patch+ns+pre+lab+ann+json+img",
    res "ConfigMap" "cfg" "cm",
    res "Deployment" "job.yaml" "doc+patch+ns+pre+lab+ann+json+img"]

/-- What `loadCustomizedResMap` makes of the overlay of the layered example. -/
def overlayLoaded : ResMap :=
  [res "Deployment" "svc.yaml" "doc+patch+ns+pre+lab+ann+json+img",
    res "Deployment" "deploy.yaml"
      "doc+patch+ns+pre+lab+ann+json+img+patch+ns+pre+lab+ann+json+img",
    res "Deployment" "db.yaml"
      ("doc+patch+ns+pre+lab+ann+json+img+patch+ns+pre+lab+ann+json+img"
        ++ "+patch+ns+pre+lab+ann+json+img"),
    res "ConfigMap" "cfg" "cm+patch+ns+pre+lab+ann+json+img",
    res "Deployment" "job.yaml"
      "doc+patch+ns+pre+lab+ann+json+img+patch+ns+pre+lab+ann+json+img"]

/-- What the overlay of the layered example resolves to. -/
def overlayFinal : ResMap :=
  [res "Deployment" "svc.yaml" "doc+patch+ns+pre+lab+ann+json+img+hash+ref+var",
    res "Deployment" "deploy.yaml"
      "doc+patch+ns+pre+lab+ann+json+img+patch+ns+pre+lab+ann+json+img+hash+ref+var",
    res "Deployment" "db.yaml"
      ("doc+patch+ns+pre+lab+ann+json+img+patch+ns+pre+lab+ann+json+img"
        ++ "+patch+ns+pre+lab+ann+json+img+hash+ref+var"),
    res "ConfigMap" "cfg" "cm+patch+ns+pre+lab+ann+json+img+hash+ref+var",
    res "Deployment" "job.yaml"
      "doc+patch+ns+pre+lab+ann+json+img+patch+ns+pre+lab+ann+json+img+hash+ref+var"]

/-- A target rooted at `app` that declares two vars of the one name `X`, the
first on the document `a`, the second on the document `b`. -/
def twoVarsTarget : KustTarget :=
  { kustomization :=
      { emptyKustomization with
        vars := [var "X" "Service" "a" "doc", var "X" "Service" "b" "doc"] }
    ldr := { root := "app" }
    tcfg := emptyConfig }

/-- A target rooted at `app` that declares the var `A` on the document `a` and
the var `C` on a document `c`. -/
def distinctVarsTarget : KustTarget :=
  { kustomization :=
      { emptyKustomization with
        vars := [var "A" "Service" "a" "doc", var "C" "Service" "c" "doc"] }
    ldr := { root := "app" }
    tcfg := emptyConfig }

/-- A collection with the two services `a` and `b`. -/
def twoServices : ResMap :=
  [res "Service" "a" "10.0.0.1", res "Service" "b" "10.0.0.2"]

/-- Build options for the directory `app`, writing to the output stream. -/
def appOptions : buildOptions :=
  { kustomizationPath := "app", outputPath := "", transformerconfigPaths := [] }

/-- Build options for the directory `app`, writing to the file `out.yaml`. -/
def appToFileOptions : buildOptions :=
  { kustomizationPath := "app", outputPath := "out.yaml", transformerconfigPaths := [] }

/-- The quiet world in which the manifest of `app` declares the one resource
file `deploy.yaml`. -/
def appWorld : World :=
  { quietWorld with
    jsonDecode := fun j =>
      if j = "app" then .ok { emptyKustomization with resources := ["deploy.yaml"] }
      else .ok emptyKustomization }

/-! ## Lemmas -/

/-- A composite transformer over leaves behaves as `applyInOrder` over the
same list. -/
theorem transformAll_leaves (fs : List (TKind × TransformFn)) (m : ResMap) :
    Transformer.transformAll (fs.map (fun a => Transformer.leaf a.1 a.2)) m
      = applyInOrder fs m := by
  induction fs generalizing m with
  | nil => rfl
  | cons a rest ih =>
    obtain ⟨k, f⟩ := a
    simp only [List.map_cons, Transformer.transformAll, Transformer.transform, applyInOrder]
    cases hf : f m with
    | error e => simp
    | ok m1 => simp [ih]

/-- Nesting a composite inside a composite changes nothing: the members of the
inner one run first, then the rest. -/
theorem transformAll_nested (fs gs : List (TKind × TransformFn)) (m : ResMap) :
    Transformer.transformAll
        (Transformer.multi (fs.map (fun a => Transformer.leaf a.1 a.2))
          :: gs.map (fun a => Transformer.leaf a.1 a.2)) m
      = applyInOrder (fs ++ gs) m := by
  induction fs generalizing m with
  | nil =>
    simp only [List.map_nil, Transformer.transformAll, Transformer.transform, List.nil_append]
    rw [transformAll_leaves]
  | cons a rest ih =>
    obtain ⟨k, f⟩ := a
    have h := ih
    simp only [Transformer.transformAll, Transformer.transform, List.map_cons,
      List.cons_append, applyInOrder] at h ⊢
    cases hf : f m with
    | error e => simp
    | ok m1 =>
      simp only []
      have h1 := h m1
      revert h1
      cases hr : Transformer.transformAll (rest.map (fun a => Transformer.leaf a.1 a.2)) m1 with
      | mk r1 tr1 =>
        cases r1 with
        | error e => intro h1; simp [← h1]
        | ok m2 =>
          simp only []
          cases hg : Transformer.transformAll (gs.map (fun a => Transformer.leaf a.1 a.2)) m2 with
          | mk r2 tr2 => intro h1; simp [← h1]

/-- The transformer phase is the flat local pipeline: nothing runs when a
constructor fails, otherwise the seven run in order up to the first failure. -/
theorem transformPhase_eq (w : World) (kt : KustTarget) (result : ResMap)
    (patches : List Resource) :
    transformPhase w kt result patches =
      match localPipeline w kt patches with
      | .error e => (.error e, [])
      | .ok fs => ((applyInOrder fs result).1, transformEvents kt.ldr (applyInOrder fs result).2) := by
  unfold transformPhase newTransformer localPipeline
  cases h1 : w.newPatchTransformer patches with
  | error e => rfl
  | ok f1 =>
    cases h3 : w.newNamePrefixTransformer kt.kustomization.namePrefix kt.tcfg.namePrefix with
    | error e => rfl
    | ok f3 =>
      cases h4 : w.newLabelsMapTransformer kt.kustomization.commonLabels kt.tcfg.commonLabels with
      | error e => rfl
      | ok f4 =>
        cases h5 : w.newAnnotationsMapTransformer kt.kustomization.commonAnnotations
            kt.tcfg.commonAnnotations with
        | error e => rfl
        | ok f5 =>
          cases h6 : w.makePatchJson6902Transformer kt.ldr kt.kustomization.patchesJson6902 with
          | error e => rfl
          | ok f6 =>
            cases h7 : w.newImageTagTransformer kt.kustomization.imageTags with
            | error e => rfl
            | ok f7 =>
              have key := transformAll_nested
                [(TKind.patch, f1),
                  (TKind.nameSpace,
                    w.newNamespaceTransformer kt.kustomization.nameSpace kt.tcfg.nameSpace),
                  (TKind.namePrefix, f3), (TKind.labels, f4), (TKind.annotations, f5)]
                [(TKind.patchJson6902, f6), (TKind.imageTag, f7)] result
              simp only [List.map_cons, List.map_nil, List.cons_append, List.nil_append] at key
              simp only [NewMultiTransformer, Transformer.transform, List.cons_append,
                List.nil_append, key]
              cases applyInOrder _ result with
              | mk r tr => cases r <;> rfl

theorem appendWrapped_eq (errs : List Err) (err : Option Err) (ctx : String) :
    appendWrapped errs err ctx = errs ++ entry err ctx := by
  cases err <;> simp [appendWrapped, entry]

theorem NewKustTarget_ok (w : World) (l : Loader) (tcfg : TransformerConfig)
    (target : KustTarget) (h : NewKustTarget w l tcfg = .ok target) :
    loadKustomization w l = .ok target.kustomization ∧ target.ldr = l ∧ target.tcfg = tcfg := by
  unfold NewKustTarget at h
  cases hk : loadKustomization w l with
  | error e => rw [hk] at h; cases h
  | ok k => rw [hk] at h; cases h; exact ⟨rfl, rfl, rfl⟩

theorem basesLoop_ldr_error (resolve : KustTarget → Option Resolved) (w : World)
    (kt : KustTarget) (path : String) (rest : List String) (list : List ResMap)
    (errs : List Err) (evs : List Event) (e : Err) (hl : w.ldrNew kt.ldr path = .error e) :
    loadCustomizedBasesLoop resolve w kt (path :: rest) list errs evs
      = loadCustomizedBasesLoop resolve w kt rest list
          (errs ++ [Err.wrap e ("couldn't make ldr for " ++ path)]) evs := by
  simp only [loadCustomizedBasesLoop, hl]

theorem basesLoop_target_error (resolve : KustTarget → Option Resolved) (w : World)
    (kt : KustTarget) (path : String) (rest : List String) (list : List ResMap)
    (errs : List Err) (evs : List Event) (l : Loader) (e : Err)
    (hl : w.ldrNew kt.ldr path = .ok l) (ht : NewKustTarget w l kt.tcfg = .error e) :
    loadCustomizedBasesLoop resolve w kt (path :: rest) list errs evs
      = loadCustomizedBasesLoop resolve w kt rest list
          (errs ++ [Err.wrap e ("couldn't make target for " ++ path)]) evs := by
  simp only [loadCustomizedBasesLoop, hl, ht]

theorem basesLoop_resolve_none (resolve : KustTarget → Option Resolved) (w : World)
    (kt : KustTarget) (path : String) (rest : List String) (list : List ResMap)
    (errs : List Err) (evs : List Event) (l : Loader) (target : KustTarget)
    (hl : w.ldrNew kt.ldr path = .ok l) (ht : NewKustTarget w l kt.tcfg = .ok target)
    (hr : resolve target = none) :
    loadCustomizedBasesLoop resolve w kt (path :: rest) list errs evs = none := by
  simp only [loadCustomizedBasesLoop, hl, ht, hr]

theorem basesLoop_resolve_error (resolve : KustTarget → Option Resolved) (w : World)
    (kt : KustTarget) (path : String) (rest : List String) (list : List ResMap)
    (errs : List Err) (evs : List Event) (l : Loader) (target kt1 : KustTarget) (e : Err)
    (evs1 : List Event)
    (hl : w.ldrNew kt.ldr path = .ok l) (ht : NewKustTarget w l kt.tcfg = .ok target)
    (hr : resolve target = some (.error e, kt1, evs1)) :
    loadCustomizedBasesLoop resolve w kt (path :: rest) list errs evs
      = loadCustomizedBasesLoop resolve w kt rest list
          (errs ++ [Err.wrap e "SemiResources"]) (evs ++ evs1) := by
  simp only [loadCustomizedBasesLoop, hl, ht, hr]

theorem basesLoop_resolve_ok (resolve : KustTarget → Option Resolved) (w : World)
    (kt : KustTarget) (path : String) (rest : List String) (list : List ResMap)
    (errs : List Err) (evs : List Event) (l : Loader) (target kt1 : KustTarget) (m : ResMap)
    (evs1 : List Event)
    (hl : w.ldrNew kt.ldr path = .ok l) (ht : NewKustTarget w l kt.tcfg = .ok target)
    (hr : resolve target = some (.ok m, kt1, evs1)) :
    loadCustomizedBasesLoop resolve w kt (path :: rest) list errs evs
      = loadCustomizedBasesLoop resolve w kt rest (list ++ [m]) errs
          (evs ++ evs1 ++ [Event.cleanup l]) := by
  simp only [loadCustomizedBasesLoop, hl, ht, hr]

/-- The loop over the bases returns when every recursive call does. -/
theorem loadCustomizedBasesLoop_total (resolve : KustTarget → Option Resolved) (w : World)
    (kt : KustTarget) (paths : List String)
    (hres : ∀ path ∈ paths, ∀ l target, w.ldrNew kt.ldr path = .ok l →
      NewKustTarget w l kt.tcfg = .ok target → ∃ r, resolve target = some r)
    (list : List ResMap) (errs : List Err) (evs : List Event) :
    ∃ r, loadCustomizedBasesLoop resolve w kt paths list errs evs = some r := by
  induction paths generalizing list errs evs with
  | nil => exact ⟨_, rfl⟩
  | cons path rest ih =>
    have ih1 := ih (fun p hp => hres p (List.mem_cons_of_mem _ hp))
    cases hl : w.ldrNew kt.ldr path with
    | error e => rw [basesLoop_ldr_error resolve w kt path rest list errs evs e hl]; exact ih1 _ _ _
    | ok l =>
      cases ht : NewKustTarget w l kt.tcfg with
      | error e =>
        rw [basesLoop_target_error resolve w kt path rest list errs evs l e hl ht]
        exact ih1 _ _ _
      | ok target =>
        obtain ⟨r, hr⟩ := hres path (List.mem_cons_self _ _) l target hl ht
        obtain ⟨r0, kt1, evs1⟩ := r
        cases r0 with
        | error e =>
          rw [basesLoop_resolve_error resolve w kt path rest list errs evs l target kt1 e evs1
            hl ht hr]
          exact ih1 _ _ _
        | ok m =>
          rw [basesLoop_resolve_ok resolve w kt path rest list errs evs l target kt1 m evs1
            hl ht hr]
          exact ih1 _ _ _

/-- Closed form of `loadCustomizedBases`, given what its loop returned. -/
theorem loadCustomizedBasesWith_eq (resolve : KustTarget → Option Resolved) (w : World)
    (kt : KustTarget) (list : List ResMap) (errs : List Err) (evs : List Event)
    (hloop : loadCustomizedBasesLoop resolve w kt kt.kustomization.bases [] [] []
      = some (list, errs, evs)) :
    loadCustomizedBasesWith resolve w kt
      = some (orNil (MergeWithoutOverride list),
          errs ++ entry (errOf (MergeWithoutOverride list)) "Merge failed", evs) := by
  simp only [loadCustomizedBasesWith, hloop]
  cases MergeWithoutOverride list with
  | error e => simp [orNil, errOf, entry]
  | ok m => simp [orNil, errOf, entry]

/-- Closed form of `loadResMapFromBasesAndResources`, given what
`loadCustomizedBases` returned. -/
theorem loadResMapFromBasesAndResourcesWith_eq (resolve : KustTarget → Option Resolved)
    (w : World) (kt : KustTarget) (bases : ResMap) (errs : List Err) (evs : List Event)
    (hb : loadCustomizedBasesWith resolve w kt = some (bases, errs, evs)) :
    loadResMapFromBasesAndResourcesWith resolve w kt
      = some (if (errs ++ entry (errOf (w.newResMapFromFiles kt.ldr kt.kustomization.resources))
              "rawResources failed to read Resources").length > 0
          then .error (Err.multi (errs ++ entry
            (errOf (w.newResMapFromFiles kt.ldr kt.kustomization.resources))
              "rawResources failed to read Resources"))
          else MergeWithoutOverride
            [orNil (w.newResMapFromFiles kt.ldr kt.kustomization.resources), bases], evs) := by
  simp only [loadResMapFromBasesAndResourcesWith, hb, appendWrapped_eq]
  split <;> rfl

/-- Closed form of the loading phase, given what loading the bases and
resources returned: a failed merge of the generator outputs or a failed
override merge is returned at once, otherwise the aggregated error list decides. -/
theorem loadPhaseWith_eq (resolve : KustTarget → Option Resolved) (w : World)
    (kt : KustTarget) (r0 : Except Err ResMap) (evs : List Event)
    (h0 : loadResMapFromBasesAndResourcesWith resolve w kt = some (r0, evs)) :
    loadPhaseWith resolve w kt
      = some (
        match MergeWithoutOverride
          [orNil (w.newResMapFromConfigMapArgs kt.ldr kt.kustomization.configMapGenerator),
            orNil (w.newResMapFromSecretArgs kt.ldr.root kt.kustomization.secretGenerator)] with
        | .error err => (.error (Err.wrap err "Merge"), afterCRDs w kt, evs)
        | .ok g =>
          match MergeWithOverride w.validId (orNil r0) g with
          | .error err => (.error err, afterCRDs w kt, evs)
          | .ok result =>
            if (loadingFailures w kt r0).length > 0
            then (.error (Err.multi (loadingFailures w kt r0)), afterLoading w kt, evs)
            else (.ok (result, orNil (w.newResourceSliceFromPatches kt.ldr
                (patchAppend kt.kustomization.patchesStrategicMerge kt.kustomization.patches))),
              afterLoading w kt, evs)) := by
  simp only [loadPhaseWith, h0, appendWrapped_eq, List.nil_append]
  cases MergeWithoutOverride
      [orNil (w.newResMapFromConfigMapArgs kt.ldr kt.kustomization.configMapGenerator),
        orNil (w.newResMapFromSecretArgs kt.ldr.root kt.kustomization.secretGenerator)] with
  | error e => rfl
  | ok g =>
    simp only []
    cases MergeWithOverride w.validId (orNil r0) g with
    | error e => rfl
    | ok result =>
      simp only [loadingFailures, afterLoading, afterCRDs, appendPatches, List.append_assoc]
      split <;> rfl

/-- Loading the bases and resources returns when every recursive call on a
base does. -/
theorem loadResMapFromBasesAndResourcesWith_total (resolve : KustTarget → Option Resolved)
    (w : World) (kt : KustTarget)
    (hres : ∀ path ∈ kt.kustomization.bases, ∀ l target, w.ldrNew kt.ldr path = .ok l →
      NewKustTarget w l kt.tcfg = .ok target → ∃ r, resolve target = some r) :
    ∃ r0 evs, loadResMapFromBasesAndResourcesWith resolve w kt = some (r0, evs) := by
  obtain ⟨⟨list, errs, evs⟩, hloop⟩ :=
    loadCustomizedBasesLoop_total resolve w kt kt.kustomization.bases hres [] [] []
  have hb := loadCustomizedBasesWith_eq resolve w kt list errs evs hloop
  exact ⟨_, evs, loadResMapFromBasesAndResourcesWith_eq resolve w kt _ _ evs hb⟩

theorem hierarchyWithin_base (w : World) (n : Nat) (ldr : Loader) (k : Kustomization)
    (h : hierarchyWithin w (n + 1) ldr k = true) (path : String) (hp : path ∈ k.bases)
    (l : Loader) (k1 : Kustomization) (hl : w.ldrNew ldr path = .ok l)
    (hk : loadKustomization w l = .ok k1) : hierarchyWithin w n l k1 = true := by
  simp only [hierarchyWithin, List.all_eq_true] at h
  have := h path hp
  simpa [hl, hk] using this

/-- Enough fuel: a target whose hierarchy is within `n` levels is resolved with
fuel `n`. -/
theorem loadCustomizedResMap_total (w : World) (n : Nat) :
    ∀ kt : KustTarget, hierarchyWithin w n kt.ldr kt.kustomization = true →
      ∃ r, loadCustomizedResMap n w kt = some r := by
  induction n with
  | zero => intro kt h; simp [hierarchyWithin] at h
  | succ n ih =>
    intro kt h
    have hres : ∀ path ∈ kt.kustomization.bases, ∀ l target, w.ldrNew kt.ldr path = .ok l →
        NewKustTarget w l kt.tcfg = .ok target →
        ∃ r, loadCustomizedResMap n w target = some r := by
      intro path hp l target hl ht
      obtain ⟨hk, hldr, _⟩ := NewKustTarget_ok w l kt.tcfg target ht
      apply ih
      rw [hldr]
      exact hierarchyWithin_base w n kt.ldr kt.kustomization h path hp l _ hl hk
    obtain ⟨r0, evs, h0⟩ :=
      loadResMapFromBasesAndResourcesWith_total (loadCustomizedResMap n w) w kt hres
    obtain ⟨x, hp⟩ : ∃ x, loadPhaseWith (loadCustomizedResMap n w) w kt = some x :=
      ⟨_, loadPhaseWith_eq (loadCustomizedResMap n w) w kt r0 evs h0⟩
    obtain ⟨r, kt1, evs1⟩ := x
    simp only [loadCustomizedResMap, loadCustomizedResMapWith, hp]
    cases r with
    | error e => exact ⟨_, rfl⟩
    | ok v =>
      obtain ⟨result, patches⟩ := v
      exact ⟨_, rfl⟩

theorem hasId_eq_false (m : ResMap) (id : ResId) (h : hasId m id = false) :
    id ∉ m.map (fun r => r.id) := by
  intro hmem
  obtain ⟨r, hr, hid⟩ := List.mem_map.mp hmem
  have : hasId m id = true := by
    simp only [hasId, List.any_eq_true, decide_eq_true_eq]
    exact ⟨r, hr, hid⟩
  rw [h] at this
  cases this

/-- A successful merge of one input into the result appends it, and it keeps
the ids distinct. -/
theorem mergeInto_ok (m : ResMap) : ∀ (result g : ResMap), mergeInto result m = .ok g →
    g = result ++ m
      ∧ ((result.map (fun r => r.id)).Nodup → (g.map (fun r => r.id)).Nodup) := by
  induction m with
  | nil =>
    intro result g h
    simp only [mergeInto] at h
    cases h
    simp
  | cons r rest ih =>
    intro result g h
    simp only [mergeInto] at h
    cases hid : hasId result r.id with
    | true => rw [hid] at h; simp at h
    | false =>
      rw [hid] at h
      simp only [Bool.false_eq_true, if_false] at h
      obtain ⟨hg, hnd⟩ := ih (result ++ [r]) g h
      refine ⟨by simp [hg], fun hres => hnd ?_⟩
      have hnot := hasId_eq_false result r.id hid
      rw [List.map_append, List.nodup_append]
      refine ⟨hres, by simp, ?_⟩
      intro x hx hx1
      simp only [List.map_cons, List.map_nil, List.mem_singleton] at hx1
      exact hnot (hx1 ▸ hx)

/-- Merge-without-override of two collections: when it succeeds the result is
the first followed by the second, and no id occurs twice. -/
theorem MergeWithoutOverride_pair (x y g : ResMap)
    (h : MergeWithoutOverride [x, y] = .ok g) :
    g = x ++ y ∧ (g.map (fun r => r.id)).Nodup := by
  simp only [MergeWithoutOverride, mergeAll] at h
  cases h1 : mergeInto [] x with
  | error e => rw [h1] at h; cases h
  | ok g1 =>
    rw [h1] at h
    simp only [] at h
    cases h2 : mergeInto g1 y with
    | error e => rw [h2] at h; cases h
    | ok g2 =>
      rw [h2] at h
      simp only [Except.ok.injEq] at h
      subst h
      obtain ⟨e1, n1⟩ := mergeInto_ok x [] g1 h1
      obtain ⟨e2, n2⟩ := mergeInto_ok y g1 g2 h2
      simp only [List.nil_append] at e1
      subst e1
      exact ⟨e2, n2 (n1 (by simp))⟩

theorem lookupId_setResource (b : ResMap) (r : Resource) (id : ResId) :
    lookupId (setResource b r) id = if r.id = id then some r else lookupId b id := by
  induction b with
  | nil =>
    by_cases h : r.id = id <;> simp [setResource, lookupId, h]
  | cons x xs ih =>
    simp only [lookupId] at ih
    by_cases hx : x.id = r.id
    · by_cases h : r.id = id
      · simp [setResource, lookupId, hx, h]
      · have hxid : ¬ x.id = id := by rw [hx]; exact h
        simp [setResource, lookupId, hx, h]
    · by_cases h : r.id = id
      · have hxid : ¬ x.id = id := by rw [← h]; exact hx
        simp [setResource, lookupId, hx, h, hxid, List.find?_cons, ih]
      · by_cases hxid : x.id = id
        · have h1 : ¬ id = r.id := fun e => h e.symm
          simp [setResource, lookupId, hxid, h, h1, List.find?_cons]
        · simp [setResource, lookupId, hx, h, hxid, List.find?_cons, ih]

/-- Merge-with-override: ids that the overlay does not have keep the document
of the base, and every overlay document (ids distinct) is the one found under
its id. -/
theorem MergeWithOverride_ok (valid : ResId → Bool) (g : ResMap) :
    ∀ (base m : ResMap), MergeWithOverride valid base g = .ok m →
      (∀ id, (∀ r ∈ g, r.id ≠ id) → lookupId m id = lookupId base id)
        ∧ ((g.map (fun r => r.id)).Nodup → ∀ r ∈ g, lookupId m r.id = some r) := by
  induction g with
  | nil =>
    intro base m h
    simp only [MergeWithOverride] at h
    cases h
    simp
  | cons r0 rest ih =>
    intro base m h
    simp only [MergeWithOverride] at h
    cases hv : valid r0.id with
    | false => rw [hv] at h; simp at h
    | true =>
      rw [hv] at h
      simp only [if_true] at h
      obtain ⟨hkeep, hwin⟩ := ih (setResource base r0) m h
      constructor
      · intro id hid
        rw [hkeep id (fun r hr => hid r (List.mem_cons_of_mem _ hr)), lookupId_setResource]
        simp [hid r0 (List.mem_cons_self _ _)]
      · intro hnd r hr
        simp only [List.map_cons, List.nodup_cons] at hnd
        rcases List.mem_cons.mp hr with h1 | h1
        · subst h1
          rw [hkeep r.id, lookupId_setResource]
          · simp
          · intro r1 hr1 heq
            exact hnd.1 (List.mem_map.mpr ⟨r1, hr1, heq⟩)
        · exact hwin hnd.2 r h1

/-- What a successful `loadResMapFromBasesAndResources` did: the bases were
loaded without error, the resource files were read, and the two were merged
without override, resources first. -/
theorem loadResMapFromBasesAndResources_ok (n : Nat) (w : World) (kt : KustTarget)
    (a : ResMap) (evs : List Event)
    (h0 : loadResMapFromBasesAndResources n w kt = some (.ok a, evs)) :
    ∃ bases resources, loadCustomizedBases n w kt = some (bases, [], evs)
      ∧ w.newResMapFromFiles kt.ldr kt.kustomization.resources = .ok resources
      ∧ MergeWithoutOverride [resources, bases] = .ok a := by
  unfold loadResMapFromBasesAndResources at h0
  unfold loadCustomizedBases
  cases hb : loadCustomizedBasesWith (loadCustomizedResMap n w) w kt with
  | none => simp [loadResMapFromBasesAndResourcesWith, hb] at h0
  | some b =>
    obtain ⟨bases, errs, evs1⟩ := b
    rw [loadResMapFromBasesAndResourcesWith_eq _ w kt bases errs evs1 hb] at h0
    simp only [Option.some.injEq, Prod.mk.injEq] at h0
    obtain ⟨h1, h2⟩ := h0
    subst h2
    cases hr : w.newResMapFromFiles kt.ldr kt.kustomization.resources with
    | error e => simp [hr, errOf, entry] at h1
    | ok resources =>
      cases errs with
      | cons e es => simp [hr, errOf, entry] at h1
      | nil =>
        simp only [hr, errOf, entry, List.append_nil, List.length_nil, gt_iff_lt,
          lt_self_iff_false, if_false, orNil] at h1
        exact ⟨bases, resources, rfl, rfl, h1⟩

/-- Closed form of the loop of `loadCustomizedBases`: every declared base is
visited, in order; each one adds its collection, or its error entry, and its
events. -/
theorem loadCustomizedBasesLoop_eq (resolve : KustTarget → Option Resolved) (w : World)
    (kt : KustTarget) (paths : List String) :
    ∀ (list : List ResMap) (errs : List Err) (evs : List Event)
      (list1 : List ResMap) (errs1 : List Err) (evs1 : List Event),
      loadCustomizedBasesLoop resolve w kt paths list errs evs = some (list1, errs1, evs1) →
      list1 = list ++ paths.filterMap (baseSuccessWith resolve w kt)
        ∧ errs1 = errs ++ paths.filterMap (baseFailureWith resolve w kt)
        ∧ evs1 = evs ++ (paths.map (baseEventsWith resolve w kt)).flatten := by
  induction paths with
  | nil =>
    intro list errs evs list1 errs1 evs1 h
    simp only [loadCustomizedBasesLoop, Option.some.injEq, Prod.mk.injEq] at h
    obtain ⟨h1, h2, h3⟩ := h
    simp [h1, h2, h3]
  | cons path rest ih =>
    intro list errs evs list1 errs1 evs1 h
    cases hl : w.ldrNew kt.ldr path with
    | error e =>
      rw [basesLoop_ldr_error resolve w kt path rest list errs evs e hl] at h
      obtain ⟨h1, h2, h3⟩ := ih _ _ _ _ _ _ h
      simp [h1, h2, h3, baseSuccessWith, baseFailureWith, baseEventsWith, hl]
    | ok l =>
      cases ht : NewKustTarget w l kt.tcfg with
      | error e =>
        rw [basesLoop_target_error resolve w kt path rest list errs evs l e hl ht] at h
        obtain ⟨h1, h2, h3⟩ := ih _ _ _ _ _ _ h
        simp [h1, h2, h3, baseSuccessWith, baseFailureWith, baseEventsWith, hl, ht]
      | ok target =>
        cases hr : resolve target with
        | none =>
          rw [basesLoop_resolve_none resolve w kt path rest list errs evs l target hl ht hr] at h
          cases h
        | some r =>
          obtain ⟨r0, kt1, evs0⟩ := r
          cases r0 with
          | error e =>
            rw [basesLoop_resolve_error resolve w kt path rest list errs evs l target kt1 e
              evs0 hl ht hr] at h
            obtain ⟨h1, h2, h3⟩ := ih _ _ _ _ _ _ h
            simp [h1, h2, h3, baseSuccessWith, baseFailureWith, baseEventsWith, hl, ht, hr]
          | ok m =>
            rw [basesLoop_resolve_ok resolve w kt path rest list errs evs l target kt1 m
              evs0 hl ht hr] at h
            obtain ⟨h1, h2, h3⟩ := ih _ _ _ _ _ _ h
            simp [h1, h2, h3, baseSuccessWith, baseFailureWith, baseEventsWith, hl, ht, hr]

/-- Closed form of `loadCustomizedBases`, when it returns. -/
theorem loadCustomizedBasesWith_closed (resolve : KustTarget → Option Resolved) (w : World)
    (kt : KustTarget) (result : ResMap) (errs : List Err) (evs : List Event)
    (h : loadCustomizedBasesWith resolve w kt = some (result, errs, evs)) :
    result = orNil (MergeWithoutOverride
        (kt.kustomization.bases.filterMap (baseSuccessWith resolve w kt)))
      ∧ errs = kt.kustomization.bases.filterMap (baseFailureWith resolve w kt)
          ++ entry (errOf (MergeWithoutOverride
              (kt.kustomization.bases.filterMap (baseSuccessWith resolve w kt)))) "Merge failed"
      ∧ evs = (kt.kustomization.bases.map (baseEventsWith resolve w kt)).flatten := by
  cases hloop : loadCustomizedBasesLoop resolve w kt kt.kustomization.bases [] [] [] with
  | none => simp [loadCustomizedBasesWith, hloop] at h
  | some r =>
    obtain ⟨list, errs0, evs0⟩ := r
    rw [loadCustomizedBasesWith_eq resolve w kt list errs0 evs0 hloop] at h
    obtain ⟨h1, h2, h3⟩ := loadCustomizedBasesLoop_eq resolve w kt _ _ _ _ _ _ _ hloop
    simp only [List.nil_append] at h1 h2 h3
    simp only [Option.some.injEq, Prod.mk.injEq] at h
    obtain ⟨g1, g2, g3⟩ := h
    subst h1 h2 h3
    exact ⟨g1.symm, g2.symm, g3.symm⟩

theorem hierarchyWithin_resolves (w : World) (n : Nat) (kt : KustTarget)
    (hfin : hierarchyWithin w (n + 1) kt.ldr kt.kustomization = true) :
    ∀ path ∈ kt.kustomization.bases, ∀ l target, w.ldrNew kt.ldr path = .ok l →
      NewKustTarget w l kt.tcfg = .ok target →
      ∃ r, loadCustomizedResMap n w target = some r := by
  intro path hp l target hl ht
  obtain ⟨hk, hldr, _⟩ := NewKustTarget_ok w l kt.tcfg target ht
  apply loadCustomizedResMap_total
  rw [hldr]
  exact hierarchyWithin_base w n kt.ldr kt.kustomization hfin path hp l _ hl hk

theorem localPipeline_kinds (w : World) (kt : KustTarget) (patches : List Resource)
    (fs : List (TKind × TransformFn)) (h : localPipeline w kt patches = .ok fs) :
    fs.map Prod.fst = [TKind.patch, TKind.nameSpace, TKind.namePrefix, TKind.labels,
      TKind.annotations, TKind.patchJson6902, TKind.imageTag] := by
  unfold localPipeline at h
  cases h1 : w.newPatchTransformer patches with
  | error e => rw [h1] at h; cases h
  | ok f1 =>
    rw [h1] at h
    cases h3 : w.newNamePrefixTransformer kt.kustomization.namePrefix kt.tcfg.namePrefix with
    | error e => rw [h3] at h; cases h
    | ok f3 =>
      rw [h3] at h
      cases h4 : w.newLabelsMapTransformer kt.kustomization.commonLabels kt.tcfg.commonLabels with
      | error e => rw [h4] at h; cases h
      | ok f4 =>
        rw [h4] at h
        cases h5 : w.newAnnotationsMapTransformer kt.kustomization.commonAnnotations
            kt.tcfg.commonAnnotations with
        | error e => rw [h5] at h; cases h
        | ok f5 =>
          rw [h5] at h
          cases h6 : w.makePatchJson6902Transformer kt.ldr kt.kustomization.patchesJson6902 with
          | error e => rw [h6] at h; cases h
          | ok f6 =>
            rw [h6] at h
            cases h7 : w.newImageTagTransformer kt.kustomization.imageTags with
            | error e => rw [h7] at h; cases h
            | ok f7 =>
              rw [h7] at h
              cases h
              rfl

/-- Only listed transformers are applied. -/
theorem applyInOrder_kinds (fs : List (TKind × TransformFn)) :
    ∀ (m : ResMap), ∀ x ∈ (applyInOrder fs m).2, x.1 ∈ fs.map Prod.fst := by
  induction fs with
  | nil => intro m x hx; simp [applyInOrder] at hx
  | cons a rest ih =>
    obtain ⟨k, f⟩ := a
    intro m x hx
    simp only [applyInOrder] at hx
    cases hf : f m with
    | error e =>
      rw [hf] at hx
      simp only [List.mem_singleton] at hx
      simp [hx]
    | ok m1 =>
      rw [hf] at hx
      simp only [List.mem_cons] at hx
      rcases hx with hx | hx
      · simp [hx]
      · exact List.mem_cons_of_mem _ (ih m1 x hx)

/-- The transformer phase applies local transformers only. -/
theorem transformPhase_events (w : World) (kt : KustTarget) (result : ResMap)
    (patches : List Resource) :
    ∀ e ∈ (transformPhase w kt result patches).2, e.isLoading = true := by
  rw [transformPhase_eq]
  cases hp : localPipeline w kt patches with
  | error err => intro e he; simp at he
  | ok fs =>
    intro e he
    simp only [transformEvents, List.mem_map] at he
    obtain ⟨x, hx, rfl⟩ := he
    have hk := applyInOrder_kinds fs result x hx
    rw [localPipeline_kinds w kt patches fs hp] at hk
    simp only [List.mem_cons, List.mem_singleton] at hk
    simp only [Event.isLoading]
    rcases hk with h | h | h | h | h | h | h | h <;> first | (rw [h]; rfl) | (cases h)

/-- The events of the loading phase are those of loading the bases. -/
theorem loadPhaseWith_events (resolve : KustTarget → Option Resolved) (w : World)
    (kt kt1 : KustTarget) (r : Except Err (ResMap × List Resource)) (evs : List Event)
    (h : loadPhaseWith resolve w kt = some (r, kt1, evs)) :
    (∃ bases errs, loadCustomizedBasesWith resolve w kt = some (bases, errs, evs))
      ∧ kt1.ldr = kt.ldr := by
  cases hb : loadCustomizedBasesWith resolve w kt with
  | none => simp [loadPhaseWith, loadResMapFromBasesAndResourcesWith, hb] at h
  | some b =>
    obtain ⟨bases, errs, evs0⟩ := b
    obtain ⟨r0, h0⟩ : ∃ r0, loadResMapFromBasesAndResourcesWith resolve w kt = some (r0, evs0) :=
      ⟨_, loadResMapFromBasesAndResourcesWith_eq resolve w kt bases errs evs0 hb⟩
    rw [loadPhaseWith_eq resolve w kt r0 evs0 h0] at h
    simp only [Option.some.injEq] at h
    have key : evs0 = evs ∧ kt1.ldr = kt.ldr := by
      revert h
      split
      · intro h; cases h; exact ⟨rfl, rfl⟩
      · split
        · intro h; cases h; exact ⟨rfl, rfl⟩
        · split
          · intro h; cases h; exact ⟨rfl, rfl⟩
          · intro h; cases h; exact ⟨rfl, rfl⟩
    obtain ⟨k1, k2⟩ := key
    subst k1
    exact ⟨⟨bases, errs, rfl⟩, k2⟩

/-- Resolving a target, at any level, produces loading events only: cleanups
and applications of the seven local transformers. -/
theorem loadCustomizedResMap_events (w : World) (n : Nat) :
    ∀ (kt kt1 : KustTarget) (r : Except Err ResMap) (evs : List Event),
      loadCustomizedResMap n w kt = some (r, kt1, evs) →
      kt1.ldr = kt.ldr ∧ ∀ e ∈ evs, e.isLoading = true := by
  induction n with
  | zero => intro kt kt1 r evs h; simp [loadCustomizedResMap] at h
  | succ n ih =>
    intro kt kt1 r evs h
    simp only [loadCustomizedResMap, loadCustomizedResMapWith] at h
    cases hp : loadPhaseWith (loadCustomizedResMap n w) w kt with
    | none => rw [hp] at h; cases h
    | some p =>
      obtain ⟨rp, ktp, evsp⟩ := p
      obtain ⟨⟨bases, errs, hb⟩, hldr⟩ := loadPhaseWith_events _ w kt ktp rp evsp hp
      obtain ⟨_, _, hev⟩ := loadCustomizedBasesWith_closed _ w kt bases errs evsp hb
      have hbase : ∀ e ∈ evsp, e.isLoading = true := by
        intro e he
        rw [hev] at he
        simp only [List.mem_flatten, List.mem_map] at he
        obtain ⟨l, ⟨path, _, rfl⟩, hel⟩ := he
        cases hl : w.ldrNew kt.ldr path with
        | error err => simp [baseEventsWith, hl] at hel
        | ok ldr =>
          cases ht : NewKustTarget w ldr kt.tcfg with
          | error err => simp [baseEventsWith, hl, ht] at hel
          | ok target =>
            cases hr : loadCustomizedResMap n w target with
            | none => simp [baseEventsWith, hl, ht, hr] at hel
            | some res =>
              obtain ⟨r0, k0, evs0⟩ := res
              have hsub := (ih target k0 r0 evs0 hr).2
              cases r0 with
              | error err =>
                simp only [baseEventsWith, hl, ht, hr] at hel
                exact hsub e hel
              | ok m =>
                simp only [baseEventsWith, hl, ht, hr, List.mem_append,
                  List.mem_singleton] at hel
                rcases hel with hel | hel
                · exact hsub e hel
                · rw [hel]; rfl
      rw [hp] at h
      cases rp with
      | error err =>
        simp only [Option.some.injEq, Prod.mk.injEq] at h
        obtain ⟨_, h2, h3⟩ := h
        subst h2 h3
        exact ⟨hldr, hbase⟩
      | ok v =>
        obtain ⟨result, patches⟩ := v
        simp only [Option.some.injEq, Prod.mk.injEq] at h
        obtain ⟨_, h2, h3⟩ := h
        subst h2 h3
        refine ⟨hldr, ?_⟩
        intro e he
        rcases List.mem_append.mp he with he | he
        · exact hbase e he
        · exact transformPhase_events w ktp result patches e he

/-- Closed form of the loop of `loadBasesAsFlatList`. -/
theorem loadBasesAsFlatListLoop_eq (w : World) (kt : KustTarget) (paths : List String) :
    ∀ (result : List KustTarget) (errs : List Err),
      loadBasesAsFlatListLoop w kt paths result errs
        = (result ++ paths.filterMap (flatTarget w kt),
            errs ++ paths.filterMap (flatError w kt)) := by
  induction paths with
  | nil => intro result errs; simp [loadBasesAsFlatListLoop]
  | cons path rest ih =>
    intro result errs
    cases hl : w.ldrNew kt.ldr path with
    | error e => simp [loadBasesAsFlatListLoop, hl, ih, flatTarget, flatError]
    | ok l =>
      cases ht : NewKustTarget w l kt.tcfg with
      | error e => simp [loadBasesAsFlatListLoop, hl, ht, ih, flatTarget, flatError]
      | ok target => simp [loadBasesAsFlatListLoop, hl, ht, ih, flatTarget, flatError]

/-- The second loop of `getAllVars` appends the defaulted vars in order. -/
theorem foldl_defaulting (w : World) (vars : List Var) :
    ∀ result : List Var,
      vars.foldl (fun acc v => acc ++ [w.defaulting v]) result = result ++ vars.map w.defaulting := by
  induction vars with
  | nil => intro result; simp
  | cons v rest ih => intro result; simp [ih]

/-- The first loop of `getAllVars` produces cleanup events only, when the
recursive calls do. -/
theorem getAllVarsLoop_events
    (collect : KustTarget → Option (Except Err (List Var) × List Event))
    (hc : ∀ b r evs, collect b = some (r, evs) → ∀ e ∈ evs, e.isCleanup = true)
    (bs : List KustTarget) :
    ∀ (result : List Var) (errs : List Err) (evs : List Event)
      (result1 : List Var) (errs1 : List Err) (evs1 : List Event),
      getAllVarsLoop collect bs result errs evs = some (result1, errs1, evs1) →
      (∀ e ∈ evs, e.isCleanup = true) → ∀ e ∈ evs1, e.isCleanup = true := by
  induction bs with
  | nil =>
    intro result errs evs result1 errs1 evs1 h hev
    simp only [getAllVarsLoop, Option.some.injEq, Prod.mk.injEq] at h
    obtain ⟨_, _, h3⟩ := h
    subst h3
    exact hev
  | cons b rest ih =>
    intro result errs evs result1 errs1 evs1 h hev
    cases hb : collect b with
    | none => simp [getAllVarsLoop, hb] at h
    | some x =>
      obtain ⟨r, evs0⟩ := x
      have h0 := hc b r evs0 hb
      cases r with
      | error err =>
        simp only [getAllVarsLoop, hb] at h
        refine ih _ _ _ _ _ _ h ?_
        intro e he
        rcases List.mem_append.mp he with he | he
        · exact hev e he
        · exact h0 e he
      | ok vars =>
        simp only [getAllVarsLoop, hb] at h
        refine ih _ _ _ _ _ _ h ?_
        intro e he
        simp only [List.mem_append, List.mem_singleton] at he
        rcases he with (he | he) | he
        · exact hev e he
        · exact h0 e he
        · rw [he]; rfl

/-- Collecting the vars produces cleanup events only. -/
theorem getAllVars_events (w : World) (n : Nat) :
    ∀ (kt : KustTarget) (r : Except Err (List Var)) (evs : List Event),
      getAllVars n w kt = some (r, evs) → ∀ e ∈ evs, e.isCleanup = true := by
  induction n with
  | zero => intro kt r evs h; simp [getAllVars] at h
  | succ n ih =>
    intro kt r evs h
    simp only [getAllVars, getAllVarsWith] at h
    cases hf : loadBasesAsFlatList w kt with
    | error err =>
      rw [hf] at h
      simp only [Option.some.injEq, Prod.mk.injEq] at h
      rw [← h.2]
      intro e he
      cases he
    | ok bases =>
      rw [hf] at h
      simp only [] at h
      cases hl : getAllVarsLoop (getAllVars n w) bases [] [] [] with
      | none => rw [hl] at h; cases h
      | some x =>
        obtain ⟨result, errs, evs1⟩ := x
        have hev := getAllVarsLoop_events (getAllVars n w) ih bases _ _ _ _ _ _ hl
          (by intro e he; cases he)
        rw [hl] at h
        simp only [] at h
        split at h
        · simp only [Option.some.injEq, Prod.mk.injEq] at h
          rw [← h.2]; exact hev
        · simp only [Option.some.injEq, Prod.mk.injEq] at h
          rw [← h.2]; exact hev

/-- The first loop of `getAllVars` when every recursive call succeeds: the
results are appended in order and no error is collected. -/
theorem getAllVarsLoop_ok
    (collect : KustTarget → Option (Except Err (List Var) × List Event))
    (f : KustTarget → List Var) (bs : List KustTarget)
    (hc : ∀ b ∈ bs, ∃ evs, collect b = some (.ok (f b), evs)) :
    ∀ (result : List Var) (errs : List Err) (evs : List Event),
      ∃ evs1, getAllVarsLoop collect bs result errs evs
        = some (result ++ (bs.map f).flatten, errs, evs1) := by
  induction bs with
  | nil => intro result errs evs; exact ⟨evs, by simp [getAllVarsLoop]⟩
  | cons b rest ih =>
    intro result errs evs
    obtain ⟨evs0, hb⟩ := hc b (List.mem_cons_self _ _)
    obtain ⟨evs1, h1⟩ := ih (fun b1 hb1 => hc b1 (List.mem_cons_of_mem _ hb1))
      (result ++ f b) errs (evs ++ evs0 ++ [Event.cleanup b.ldr])
    refine ⟨evs1, ?_⟩
    simp only [getAllVarsLoop, hb, List.map_cons, List.flatten_cons]
    rw [h1, List.append_assoc]

theorem allLoadable_base (w : World) (n : Nat) (ldr : Loader) (k : Kustomization)
    (h : allLoadable w (n + 1) ldr k = true) (path : String) (hp : path ∈ k.bases) :
    ∃ l k1, w.ldrNew ldr path = .ok l ∧ loadKustomization w l = .ok k1
      ∧ allLoadable w n l k1 = true := by
  simp only [allLoadable, List.all_eq_true] at h
  have hp1 := h path hp
  cases hl : w.ldrNew ldr path with
  | error e => simp [hl] at hp1
  | ok l =>
    cases hk : loadKustomization w l with
    | error e => simp [hl, hk] at hp1
    | ok k1 => exact ⟨l, k1, rfl, hk, by simpa [hl, hk] using hp1⟩

theorem NewKustTarget_of_load (w : World) (l : Loader) (tcfg : TransformerConfig)
    (k1 : Kustomization) (hk : loadKustomization w l = .ok k1) :
    NewKustTarget w l tcfg = .ok { kustomization := k1, ldr := l, tcfg := tcfg } := by
  simp [NewKustTarget, hk]

/-- The post-order lists of the targets made by `loadBasesAsFlatList`, in order,
are the post-order lists of the declared bases. -/
theorem flatTargets_postOrder (w : World) (n : Nat) (kt : KustTarget) (paths : List String) :
    ((paths.filterMap (flatTarget w kt)).map
        (fun b => postOrderVars w n b.ldr b.kustomization)).flatten
      = (paths.map (fun path =>
          match w.ldrNew kt.ldr path with
          | .error _ => []
          | .ok l =>
            match loadKustomization w l with
            | .error _ => []
            | .ok k1 => postOrderVars w n l k1)).flatten := by
  induction paths with
  | nil => rfl
  | cons path rest ih =>
    cases hl : w.ldrNew kt.ldr path with
    | error e => simp [flatTarget, hl, ih]
    | ok l =>
      cases hk : loadKustomization w l with
      | error e => simp [flatTarget, hl, NewKustTarget, hk, ih]
      | ok k1 => simp [flatTarget, hl, NewKustTarget, hk, ih]

theorem isLoading_not_fixup (e : Event) (h : e.isLoading = true) : e.isFixup = false := by
  cases e with
  | transform l k m => simpa [Event.isLoading, Event.isFixup] using h
  | cleanup l => rfl
  | info s => rfl
  | writeFile p c => rfl
  | outWrite c => rfl

/-- The loop of `resolveRefVars` adds log lines only. -/
theorem resolveRefVarsLoop_events (w : World) (m : ResMap) (vars : List Var) :
    ∀ (result : StrMap) (evs : List Event) (r : Except Err StrMap) (evs1 : List Event),
      resolveRefVarsLoop w m vars result evs = (r, evs1) →
      ∃ infos, evs1 = evs ++ infos ∧ ∀ e ∈ infos, e.isInfo = true := by
  induction vars with
  | nil =>
    intro result evs r evs1 h
    simp only [resolveRefVarsLoop, Prod.mk.injEq] at h
    exact ⟨[], by simp [h.2], by simp⟩
  | cons v rest ih =>
    intro result evs r evs1 h
    cases hd : w.demandOneMatchForId m (NewResId v) with
    | none =>
      simp only [resolveRefVarsLoop, hd] at h
      obtain ⟨infos, h1, h2⟩ := ih _ _ _ _ h
      refine ⟨Event.info ("couldn't resolve v: " ++ w.fmtVar v) :: infos, by simp [h1], ?_⟩
      intro e he
      rcases List.mem_cons.mp he with he | he
      · rw [he]; rfl
      · exact h2 e he
    | some x =>
      cases hg : w.getFieldValue x v.fieldPath with
      | error err =>
        simp only [resolveRefVarsLoop, hd, hg, Prod.mk.injEq] at h
        exact ⟨[], by simp [h.2], by simp⟩
      | ok s =>
        simp only [resolveRefVarsLoop, hd, hg] at h
        exact ih _ _ _ _ h

/-- Resolving the vars applies no transformer and writes nothing: its events
are cleanups and log lines. -/
theorem resolveRefVars_events (n : Nat) (w : World) (kt : KustTarget) (m : ResMap)
    (r : Except Err StrMap) (evs : List Event)
    (h : resolveRefVars n w kt m = some (r, evs)) :
    ∀ e ∈ evs, e.isTransform = false ∧ e.isWrite = false := by
  unfold resolveRefVars at h
  cases hg : getAllVars n w kt with
  | none => rw [hg] at h; cases h
  | some x =>
    obtain ⟨rv, evs0⟩ := x
    have hc := getAllVars_events w n kt rv evs0 hg
    have hclean : ∀ e ∈ evs0, e.isTransform = false ∧ e.isWrite = false := by
      intro e he
      have := hc e he
      cases e <;> simp_all [Event.isCleanup, Event.isTransform, Event.isWrite]
    rw [hg] at h
    cases rv with
    | error err =>
      simp only [Option.some.injEq, Prod.mk.injEq] at h
      rw [← h.2]; exact hclean
    | ok vars =>
      simp only [Option.some.injEq] at h
      obtain ⟨infos, h1, h2⟩ := resolveRefVarsLoop_events w m vars [] evs0 r evs h
      intro e he
      rw [h1] at he
      rcases List.mem_append.mp he with he | he
      · exact hclean e he
      · have := h2 e he
        cases e <;> simp_all [Event.isInfo, Event.isTransform, Event.isWrite]

/-- What a successful `resolveRefsToGeneratedResources` did. -/
theorem resolveRefsToGeneratedResources_ok (n : Nat) (w : World) (kt : KustTarget)
    (m r : ResMap) (evs : List Event)
    (h : resolveRefsToGeneratedResources n w kt m = some (.ok r, evs)) :
    ∃ m1 evsVars m2 fref refVars,
      w.nameHashTransformer m = .ok m1
        ∧ w.newNameReferenceTransformer kt.tcfg.nameReference = .ok fref
        ∧ resolveRefVars n w kt m1 = some (.ok refVars, evsVars)
        ∧ fref m1 = .ok m2
        ∧ w.newRefVarTransformer refVars kt.tcfg.varReference m2 = .ok r
        ∧ evs = [Event.transform kt.ldr TKind.nameHash m] ++ evsVars
            ++ [Event.transform kt.ldr TKind.nameReference m1,
                Event.transform kt.ldr TKind.refVar m2] := by
  unfold resolveRefsToGeneratedResources at h
  cases hh : w.nameHashTransformer m with
  | error err => simp [hh] at h
  | ok m1 =>
    cases hr : w.newNameReferenceTransformer kt.tcfg.nameReference with
    | error err => simp [hh, hr] at h
    | ok fref =>
      cases hv : resolveRefVars n w kt m1 with
      | none => simp [hh, hr, hv] at h
      | some x =>
        obtain ⟨rv, evsVars⟩ := x
        cases rv with
        | error err => simp [hh, hr, hv] at h
        | ok refVars =>
          simp only [hh, hr, hv, NewMultiTransformer, Transformer.transform,
            Transformer.transformAll] at h
          cases h1 : fref m1 with
          | error err => simp [h1] at h
          | ok m2 =>
            cases h2 : w.newRefVarTransformer refVars kt.tcfg.varReference m2 with
            | error err => simp [h1, h2] at h
            | ok r1 =>
              simp only [h1, h2, List.append_nil, transformEvents, List.map_cons,
                List.map_nil, Option.some.injEq, Prod.mk.injEq, Except.ok.injEq,
                List.singleton_append, List.cons_append] at h
              obtain ⟨h3, h4⟩ := h
              subst h3
              refine ⟨m1, evsVars, m2, fref, refVars, rfl, rfl, hv, h1, h2, ?_⟩
              rw [← h4]
              simp

theorem mapGet_mapSet (m : StrMap) (k v k1 : String) :
    mapGet (mapSet m k v) k1 = if k1 = k then some v else mapGet m k1 := by
  induction m with
  | nil =>
    by_cases h : k1 = k
    · subst h; simp [mapGet, mapSet]
    · have h1 : ¬ k = k1 := fun e => h e.symm
      simp [mapGet, mapSet, h, h1]
  | cons a rest ih =>
    obtain ⟨ka, va⟩ := a
    simp only [mapGet, mapSet] at ih ⊢
    by_cases hka : ka = k
    · subst hka
      by_cases h : k1 = ka
      · subst h
        simp [List.filter_cons, ih]
      · have h1 : ¬ ka = k1 := fun e => h e.symm
        simpa [List.filter_cons, h, h1, List.find?_cons] using ih
    · by_cases h : k1 = k
      · subst h
        simp [List.filter_cons, hka, List.find?_cons, ih]
      · by_cases h2 : ka = k1
        · subst h2
          simp [List.filter_cons, hka, List.find?_cons, h]
        · simpa [List.filter_cons, hka, List.find?_cons, h, h2] using ih

/-- The loop of `resolveRefVars` fails exactly when some var is matched to a
resource on which its field path cannot be read. -/
theorem resolveRefVarsLoop_error_iff (w : World) (m : ResMap) (vars : List Var) :
    ∀ (result : StrMap) (evs : List Event),
      (∃ e, (resolveRefVarsLoop w m vars result evs).1 = .error e)
        ↔ ∃ v ∈ vars, ∃ x, w.demandOneMatchForId m (NewResId v) = some x
            ∧ ∃ e, w.getFieldValue x v.fieldPath = .error e := by
  induction vars with
  | nil => intro result evs; simp [resolveRefVarsLoop]
  | cons v rest ih =>
    intro result evs
    cases hd : w.demandOneMatchForId m (NewResId v) with
    | none =>
      simp only [resolveRefVarsLoop, hd, ih, List.mem_cons]
      constructor
      · rintro ⟨u, hu, x, hx, e, he⟩
        exact ⟨u, Or.inr hu, x, hx, e, he⟩
      · rintro ⟨u, hu, x, hx, e, he⟩
        rcases hu with hu | hu
        · subst hu; rw [hd] at hx; cases hx
        · exact ⟨u, hu, x, hx, e, he⟩
    | some x =>
      cases hg : w.getFieldValue x v.fieldPath with
      | error err =>
        simp only [resolveRefVarsLoop, hd, hg]
        constructor
        · intro _
          exact ⟨v, List.mem_cons_self _ _, x, hd, err, hg⟩
        · intro _
          exact ⟨_, rfl⟩
      | ok s =>
        simp only [resolveRefVarsLoop, hd, hg, ih, List.mem_cons]
        constructor
        · rintro ⟨u, hu, y, hy, e, he⟩
          exact ⟨u, Or.inr hu, y, hy, e, he⟩
        · rintro ⟨u, hu, y, hy, e, he⟩
          rcases hu with hu | hu
          · subst hu
            rw [hd] at hy
            cases hy
            rw [hg] at he
            cases he
          · exact ⟨u, hu, y, hy, e, he⟩

/-- The map that the loop of `resolveRefVars` returns: under each name the
last binding made for it, and what the map held before for the other names. -/
theorem resolveRefVarsLoop_ok (w : World) (m : ResMap) (vars : List Var) :
    ∀ (acc : StrMap) (evs : List Event) (result : StrMap),
      (resolveRefVarsLoop w m vars acc evs).1 = .ok result →
      ∀ name, mapGet result name
        = match lastBinding w m vars name with
          | some s => some s
          | none => mapGet acc name := by
  induction vars with
  | nil =>
    intro acc evs result h name
    simp only [resolveRefVarsLoop, Except.ok.injEq] at h
    simp [lastBinding, h]
  | cons v rest ih =>
    intro acc evs result h name
    cases hd : w.demandOneMatchForId m (NewResId v) with
    | none =>
      simp only [resolveRefVarsLoop, hd] at h
      rw [ih _ _ _ h name]
      simp only [lastBinding, varValue, hd]
      cases lastBinding w m rest name <;> simp
    | some x =>
      cases hg : w.getFieldValue x v.fieldPath with
      | error err => simp [resolveRefVarsLoop, hd, hg] at h
      | ok s =>
        simp only [resolveRefVarsLoop, hd, hg] at h
        rw [ih _ _ _ h name]
        simp only [lastBinding, varValue, hd, hg, mapGet_mapSet]
        cases lastBinding w m rest name with
        | some t => rfl
        | none =>
          by_cases hn : v.name = name
          · simp [hn]
          · have hn1 : ¬ name = v.name := fun e => hn e.symm
            simp [hn, hn1]

theorem lastBinding_absent (w : World) (m : ResMap) (vars : List Var) (name : String)
    (h : ∀ v ∈ vars, v.name ≠ name) : lastBinding w m vars name = none := by
  induction vars with
  | nil => rfl
  | cons v rest ih =>
    simp only [lastBinding, ih (fun u hu => h u (List.mem_cons_of_mem _ hu))]
    simp [h v (List.mem_cons_self _ _)]

/-- With pairwise distinct names, the binding of a var's name is the value of
that var. -/
theorem lastBinding_distinct (w : World) (m : ResMap) (vars : List Var)
    (hnd : (vars.map (fun v => v.name)).Nodup) :
    ∀ v ∈ vars, lastBinding w m vars v.name = varValue w m v := by
  induction vars with
  | nil => intro v hv; cases hv
  | cons v0 rest ih =>
    intro v hv
    simp only [List.map_cons, List.nodup_cons, List.mem_map, not_exists, not_and] at hnd
    rcases List.mem_cons.mp hv with hv | hv
    · subst hv
      simp only [lastBinding]
      rw [lastBinding_absent w m rest v.name (fun u hu => hnd.1 u hu)]
      simp
    · simp only [lastBinding, ih hnd.2 v hv]
      have hne : ¬ v0.name = v.name := fun e => hnd.1 v hv e.symm
      cases varValue w m v <;> simp [hne]

theorem transformEvents_no_write (ldr : Loader) (tr : List (TKind × ResMap)) :
    ∀ e ∈ transformEvents ldr tr, e.isWrite = false := by
  intro e he
  simp only [transformEvents, List.mem_map] at he
  obtain ⟨a, _, rfl⟩ := he
  rfl

theorem isLoading_not_write (e : Event) (h : e.isLoading = true) : e.isWrite = false := by
  cases e <;> simp_all [Event.isLoading, Event.isWrite]

/-- The reference fixup writes nothing. -/
theorem resolveRefsToGeneratedResources_no_write (n : Nat) (w : World) (kt : KustTarget)
    (m : ResMap) (r : Except Err ResMap) (evs : List Event)
    (h : resolveRefsToGeneratedResources n w kt m = some (r, evs)) :
    ∀ e ∈ evs, e.isWrite = false := by
  unfold resolveRefsToGeneratedResources at h
  cases hh : w.nameHashTransformer m with
  | error err =>
    simp only [hh, Option.some.injEq, Prod.mk.injEq] at h
    rw [← h.2]
    intro e he
    simp only [List.mem_singleton] at he
    rw [he]; rfl
  | ok m1 =>
    cases hr : w.newNameReferenceTransformer kt.tcfg.nameReference with
    | error err =>
      simp only [hh, hr, Option.some.injEq, Prod.mk.injEq] at h
      rw [← h.2]
      intro e he
      simp only [List.mem_singleton] at he
      rw [he]; rfl
    | ok fref =>
      cases hv : resolveRefVars n w kt m1 with
      | none => simp [hh, hr, hv] at h
      | some x =>
        obtain ⟨rv, evsVars⟩ := x
        have hq := resolveRefVars_events n w kt m1 rv evsVars hv
        cases rv with
        | error err =>
          simp only [hh, hr, hv, Option.some.injEq, Prod.mk.injEq] at h
          rw [← h.2]
          intro e he
          simp only [List.mem_append, List.mem_singleton] at he
          rcases he with he | he
          · rw [he]; rfl
          · exact (hq e he).2
        | ok refVars =>
          simp only [hh, hr, hv] at h
          have hev : ∃ tr, evs = [Event.transform kt.ldr TKind.nameHash m] ++ evsVars
              ++ transformEvents kt.ldr tr := by
            revert h
            split
            · intro h
              simp only [Option.some.injEq, Prod.mk.injEq] at h
              exact ⟨_, h.2.symm⟩
            · intro h
              simp only [Option.some.injEq, Prod.mk.injEq] at h
              exact ⟨_, h.2.symm⟩
          obtain ⟨tr, hev⟩ := hev
          rw [hev]
          intro e he
          simp only [List.mem_append, List.mem_singleton] at he
          rcases he with (he | he) | he
          · rw [he]; rfl
          · exact (hq e he).2
          · exact transformEvents_no_write kt.ldr tr e he

/-- Resolution writes nothing, neither to the output stream nor to the file
system. -/
theorem MakeCustomizedResMap_no_write (n : Nat) (w : World) (kt kt1 : KustTarget)
    (r : Except Err ResMap) (evs : List Event)
    (h : MakeCustomizedResMap n w kt = some (r, kt1, evs)) : writes evs = [] := by
  unfold writes
  rw [List.filter_eq_nil_iff]
  unfold MakeCustomizedResMap at h
  cases hl : loadCustomizedResMap n w kt with
  | none => simp [hl] at h
  | some x =>
    obtain ⟨rl, ktl, evsLoad⟩ := x
    have hload := (loadCustomizedResMap_events w n kt ktl rl evsLoad hl).2
    cases rl with
    | error err =>
      simp only [hl, Option.some.injEq, Prod.mk.injEq] at h
      rw [← h.2.2]
      intro e he
      simp [isLoading_not_write e (hload e he)]
    | ok m =>
      cases hres : resolveRefsToGeneratedResources n w ktl m with
      | none => simp [hl, hres] at h
      | some y =>
        obtain ⟨rr, evs1⟩ := y
        simp only [hl, hres, Option.some.injEq, Prod.mk.injEq] at h
        rw [← h.2.2]
        intro e he
        rcases List.mem_append.mp he with he | he
        · simp [isLoading_not_write e (hload e he)]
        · simp [resolveRefsToGeneratedResources_no_write n w ktl m rr evs1 hres e he]

theorem writes_append (a b : List Event) : writes (a ++ b) = writes a ++ writes b := by
  simp [writes]

theorem getAllVarsLoop_total
    (collect : KustTarget → Option (Except Err (List Var) × List Event))
    (bs : List KustTarget) (hc : ∀ b ∈ bs, ∃ r, collect b = some r) :
    ∀ (result : List Var) (errs : List Err) (evs : List Event),
      ∃ r, getAllVarsLoop collect bs result errs evs = some r := by
  induction bs with
  | nil => intro result errs evs; exact ⟨_, rfl⟩
  | cons b rest ih =>
    intro result errs evs
    have ih1 := ih (fun b1 hb1 => hc b1 (List.mem_cons_of_mem _ hb1))
    obtain ⟨⟨r, evs0⟩, hb⟩ := hc b (List.mem_cons_self _ _)
    cases r with
    | error err => simp only [getAllVarsLoop, hb]; exact ih1 _ _ _
    | ok vars => simp only [getAllVarsLoop, hb]; exact ih1 _ _ _

/-- Enough fuel: the vars of a target whose hierarchy is within `n` levels are
collected with fuel `n`. -/
theorem getAllVars_total (w : World) (n : Nat) :
    ∀ kt : KustTarget, hierarchyWithin w n kt.ldr kt.kustomization = true →
      ∃ r, getAllVars n w kt = some r := by
  induction n with
  | zero => intro kt h; simp [hierarchyWithin] at h
  | succ n ih =>
    intro kt h
    simp only [getAllVars, getAllVarsWith]
    cases hf : loadBasesAsFlatList w kt with
    | error err => exact ⟨_, rfl⟩
    | ok bases =>
      have hb : bases = kt.kustomization.bases.filterMap (flatTarget w kt) := by
        simp only [loadBasesAsFlatList, loadBasesAsFlatListLoop_eq, List.nil_append] at hf
        split at hf
        · cases hf
        · simp only [Except.ok.injEq] at hf
          exact hf.symm
      have hc : ∀ b ∈ bases, ∃ r, getAllVars n w b = some r := by
        intro b hbm
        rw [hb] at hbm
        obtain ⟨path, hp, hpb⟩ := List.mem_filterMap.mp hbm
        cases hl : w.ldrNew kt.ldr path with
        | error e => simp [flatTarget, hl] at hpb
        | ok l =>
          cases ht : NewKustTarget w l kt.tcfg with
          | error e => simp [flatTarget, hl, ht] at hpb
          | ok target =>
            simp only [flatTarget, hl, ht, Option.some.injEq] at hpb
            subst hpb
            obtain ⟨hk, hldr, _⟩ := NewKustTarget_ok w l kt.tcfg target ht
            apply ih
            rw [hldr]
            exact hierarchyWithin_base w n kt.ldr kt.kustomization h path hp l _ hl hk
      obtain ⟨⟨result, errs, evs⟩, hloop⟩ := getAllVarsLoop_total (getAllVars n w) bases hc [] [] []
      simp only [hloop]
      split
      · exact ⟨_, rfl⟩
      · exact ⟨_, rfl⟩

theorem hierarchyWithin_congr (w : World) (n : Nat) (ldr : Loader) (k k1 : Kustomization)
    (h : k1.bases = k.bases) : hierarchyWithin w n ldr k1 = hierarchyWithin w n ldr k := by
  cases n with
  | zero => rfl
  | succ n => simp only [hierarchyWithin, h]

theorem loadPhaseWith_target (resolve : KustTarget → Option Resolved) (w : World)
    (kt kt1 : KustTarget) (r : Except Err (ResMap × List Resource)) (evs : List Event)
    (h : loadPhaseWith resolve w kt = some (r, kt1, evs)) :
    kt1 = afterCRDs w kt ∨ kt1 = afterLoading w kt := by
  cases h0 : loadResMapFromBasesAndResourcesWith resolve w kt with
  | none => simp [loadPhaseWith, h0] at h
  | some x =>
    obtain ⟨r0, evs0⟩ := x
    rw [loadPhaseWith_eq resolve w kt r0 evs0 h0] at h
    simp only [Option.some.injEq] at h
    revert h
    split
    · intro h; cases h; exact Or.inl rfl
    · split
      · intro h; cases h; exact Or.inl rfl
      · split
        · intro h; cases h; exact Or.inr rfl
        · intro h; cases h; exact Or.inr rfl

/-- The target that a resolution leaves is the one it was given, with the CRD
rules merged and, when the loading phase ran to its end, the patches
appended. -/
theorem loadCustomizedResMap_target (w : World) (n : Nat) (kt kt1 : KustTarget)
    (r : Except Err ResMap) (evs : List Event)
    (h : loadCustomizedResMap (n + 1) w kt = some (r, kt1, evs)) :
    kt1 = afterCRDs w kt ∨ kt1 = afterLoading w kt := by
  simp only [loadCustomizedResMap, loadCustomizedResMapWith] at h
  cases hp : loadPhaseWith (loadCustomizedResMap n w) w kt with
  | none => rw [hp] at h; cases h
  | some p =>
    obtain ⟨rp, ktp, evsp⟩ := p
    have ht := loadPhaseWith_target _ w kt ktp rp evsp hp
    rw [hp] at h
    cases rp with
    | error err =>
      simp only [Option.some.injEq, Prod.mk.injEq] at h
      rw [← h.2.1]; exact ht
    | ok v =>
      obtain ⟨result, patches⟩ := v
      simp only [Option.some.injEq, Prod.mk.injEq] at h
      rw [← h.2.1]; exact ht

/-- Enough fuel: `MakeCustomizedResMap` returns on every target whose hierarchy
is within `n` levels. -/
theorem MakeCustomizedResMap_total (w : World) (n : Nat) (kt : KustTarget)
    (hfin : hierarchyWithin w n kt.ldr kt.kustomization = true) :
    ∃ r, MakeCustomizedResMap n w kt = some r := by
  obtain ⟨⟨rl, ktl, evsLoad⟩, hl⟩ := loadCustomizedResMap_total w n kt hfin
  unfold MakeCustomizedResMap
  rw [hl]
  cases rl with
  | error err => exact ⟨_, rfl⟩
  | ok m =>
    simp only []
    have hfin1 : hierarchyWithin w n ktl.ldr ktl.kustomization = true := by
      cases n with
      | zero => simp [hierarchyWithin] at hfin
      | succ n =>
        rcases loadCustomizedResMap_target w n kt ktl _ evsLoad hl with h | h
        · rw [h]; exact hfin
        · rw [h]
          exact (hierarchyWithin_congr w (n + 1) kt.ldr kt.kustomization
            (appendPatches kt.kustomization) rfl).trans hfin
    have hres : ∃ x, resolveRefsToGeneratedResources n w ktl m = some x := by
      unfold resolveRefsToGeneratedResources
      cases w.nameHashTransformer m with
      | error err => exact ⟨_, rfl⟩
      | ok m1 =>
        simp only []
        cases w.newNameReferenceTransformer ktl.tcfg.nameReference with
        | error err => exact ⟨_, rfl⟩
        | ok fref =>
          simp only []
          have hv : ∃ x, resolveRefVars n w ktl m1 = some x := by
            obtain ⟨⟨rv, evs0⟩, hg⟩ := getAllVars_total w n ktl hfin1
            simp only [resolveRefVars, hg]
            cases rv with
            | error err => exact ⟨_, rfl⟩
            | ok vars => exact ⟨_, rfl⟩
          obtain ⟨⟨rv, evsVars⟩, hv⟩ := hv
          rw [hv]
          cases rv with
          | error err => exact ⟨_, rfl⟩
          | ok refVars =>
            simp only []
            cases (NewMultiTransformer
                [Transformer.leaf TKind.nameReference fref,
                  Transformer.leaf TKind.refVar
                    (w.newRefVarTransformer refVars ktl.tcfg.varReference)]).transform m1 with
            | mk rt tr =>
              cases rt with
              | error err => exact ⟨_, rfl⟩
              | ok m2 => exact ⟨_, rfl⟩
    obtain ⟨⟨rr, evs1⟩, hres⟩ := hres
    rw [hres]
    exact ⟨_, rfl⟩

/-! ## Theorems -/

/-- C1 (amended).  For every target whose loading phase succeeds with the
accumulated collection `result`: when one of the transformer constructors
fails, `loadCustomizedResMap` applies no transformer and returns that
construction error; otherwise it applies to `result` exactly the seven
transformers of `localPipeline` (strategic-merge patch, namespace, name-prefix,
common-labels, common-annotations, JSON-patch, image-tag), flattened through the
nested multi-transformers, in this order, stops at the first one that fails and
returns its error. -/
theorem C1_local_pipeline_in_order (n : Nat) (w : World) (kt kt1 : KustTarget)
    (result : ResMap) (patches : List Resource) (evs : List Event)
    (hload : loadPhase n w kt = some (.ok (result, patches), kt1, evs)) :
    loadCustomizedResMap (n + 1) w kt =
      some (match localPipeline w kt1 patches with
        | .error e => (.error e, kt1, evs)
        | .ok fs =>
          ((applyInOrder fs result).1, kt1,
            evs ++ transformEvents kt1.ldr (applyInOrder fs result).2)) := by
  unfold loadPhase at hload
  simp only [loadCustomizedResMap, loadCustomizedResMapWith, hload, transformPhase_eq]
  cases localPipeline w kt1 patches with
  | error e => simp
  | ok fs => rfl

/-- C1, witness: in the quiet world the target `app` loads its one document,
then the seven transformers run on it in order. -/
theorem C1_local_pipeline_in_order_witness :
    loadCustomizedResMap 1 quietWorld appTarget =
      some (.ok [res "Deployment" "deploy.yaml" "doc+patch+ns+pre+lab+ann+json+img"],
        appTarget,
        [Event.transform { root := "app" } TKind.patch
            [res "Deployment" "deploy.yaml" "doc"],
          Event.transform { root := "app" } TKind.nameSpace
            [res "Deployment" "deploy.yaml" "doc+patch"],
          Event.transform { root := "app" } TKind.namePrefix
            [res "Deployment" "deploy.yaml" "doc+patch+ns"],
          Event.transform { root := "app" } TKind.labels
            [res "Deployment" "deploy.yaml" "doc+patch+ns+pre"],
          Event.transform { root := "app" } TKind.annotations
            [res "Deployment" "deploy.yaml" "doc+patch+ns+pre+lab"],
          Event.transform { root := "app" } TKind.patchJson6902
            [res "Deployment" "deploy.yaml" "doc+patch+ns+pre+lab+ann"],
          Event.transform { root := "app" } TKind.imageTag
            [res "Deployment" "deploy.yaml" "doc+patch+ns+pre+lab+ann+json"]]) :=
  C1_local_pipeline_in_order 0 quietWorld appTarget appTarget
    [res "Deployment" "deploy.yaml" "doc"] [] [] rfl

/-- C1, counterexample.  The loading phase of `app` succeeds with one document
and six of the seven transformers can be built, the strategic-merge patch
transformer among them; the image-tag transformer cannot.  The statement has
the patch transformer applied first; the code applies no transformer at all
before it returns the construction error. -/
theorem C1_counterexample :
    loadPhase 0 badImageTagWorld appTarget
        = some (.ok ([res "Deployment" "deploy.yaml" "doc"], []), appTarget, [])
      ∧ (∃ f, badImageTagWorld.newPatchTransformer [] = .ok f
          ∧ f [res "Deployment" "deploy.yaml" "doc"]
            = .ok [res "Deployment" "deploy.yaml" "doc+patch"])
      ∧ loadCustomizedResMap 1 badImageTagWorld appTarget
        = some (.error (Err.msg "bad image tag"), appTarget, [])
      ∧ ¬ (∃ rest, appliedKinds (resolvedEvents
            (loadCustomizedResMap 1 badImageTagWorld appTarget)) = TKind.patch :: rest) := by
  refine ⟨rfl, ⟨mark "+patch", rfl, rfl⟩, rfl, ?_⟩
  rintro ⟨rest, h⟩
  have h0 : appliedKinds (resolvedEvents
      (loadCustomizedResMap 1 badImageTagWorld appTarget)) = [] := rfl
  rw [h0] at h
  cases h

/-- C2 (amended).  For every target whose hierarchy is within the fuel, loading
the bases and resources returns some `r0` with events `evs`, and if at least one
loading sub-operation fails (loading bases and resources, CRD registration,
configMap generation, secret generation, patch loading) then
`loadCustomizedResMap` returns an error and its events are exactly `evs`: it
runs no transformer.  The error is the merge error wrapped with "Merge" when
merging the two generator outputs fails, the override merge's error when that
fails, and otherwise the aggregated error list, which holds one context-wrapped
entry for each failing sub-operation, in the order in which they are
attempted. -/
theorem C2_loading_failure_runs_no_transformer (n : Nat) (w : World) (kt : KustTarget)
    (hfin : hierarchyWithin w (n + 1) kt.ldr kt.kustomization = true) :
    ∃ r0 evs, loadResMapFromBasesAndResources n w kt = some (r0, evs)
      ∧ (loadingFailures w kt r0 ≠ [] →
        loadCustomizedResMap (n + 1) w kt = some (
          match MergeWithoutOverride
            [orNil (w.newResMapFromConfigMapArgs kt.ldr kt.kustomization.configMapGenerator),
              orNil (w.newResMapFromSecretArgs kt.ldr.root
                kt.kustomization.secretGenerator)] with
          | .error err => (.error (Err.wrap err "Merge"), afterCRDs w kt, evs)
          | .ok g =>
            match MergeWithOverride w.validId (orNil r0) g with
            | .error err => (.error err, afterCRDs w kt, evs)
            | .ok _ =>
              (.error (Err.multi (loadingFailures w kt r0)), afterLoading w kt, evs))) := by
  obtain ⟨r0, evs, h0⟩ :=
    loadResMapFromBasesAndResourcesWith_total (loadCustomizedResMap n w) w kt
      (hierarchyWithin_resolves w n kt hfin)
  refine ⟨r0, evs, h0, ?_⟩
  intro hfail
  have hlen : (loadingFailures w kt r0).length > 0 := List.length_pos.mpr hfail
  simp only [loadCustomizedResMap, loadCustomizedResMapWith,
    loadPhaseWith_eq (loadCustomizedResMap n w) w kt r0 evs h0, hlen, if_true]
  cases MergeWithoutOverride
      [orNil (w.newResMapFromConfigMapArgs kt.ldr kt.kustomization.configMapGenerator),
        orNil (w.newResMapFromSecretArgs kt.ldr.root kt.kustomization.secretGenerator)] with
  | error e => rfl
  | ok g =>
    simp only []
    cases MergeWithOverride w.validId (orNil r0) g with
    | error e => rfl
    | ok result => rfl

/-- C2, witness: resource loading and CRD registration both fail for `app`; the
result is the aggregated list with the two wrapped entries in this order, and
no event. -/
theorem C2_loading_failure_runs_no_transformer_witness :
    hierarchyWithin brokenLoadingWorld 1 appTarget.ldr appTarget.kustomization = true
      ∧ loadCustomizedResMap 1 brokenLoadingWorld appTarget
        = some (.error (Err.multi
            [Err.wrap (Err.multi
                [Err.wrap (Err.msg "no such file") "rawResources failed to read Resources"])
              "loadResMapFromBasesAndResources",
             Err.wrap (Err.msg "bad crd") "RegisterCRDs"]),
          appTarget, []) := by
  obtain ⟨r0, evs, h0, h⟩ :=
    C2_loading_failure_runs_no_transformer 0 brokenLoadingWorld appTarget rfl
  have h1 : some (r0, evs) = some ((.error (Err.multi
      [Err.wrap (Err.msg "no such file") "rawResources failed to read Resources"]), []) :
      Except Err ResMap × List Event) := h0.symm.trans rfl
  cases h1
  exact ⟨rfl, h (by simp [loadingFailures, entry, errOf])⟩

/-- C2, counterexample.  CRD registration fails for `app`, so a loading
sub-operation fails and the aggregated list has the entry for `RegisterCRDs`;
both generators succeed but produce the same id, so merging their outputs
fails.  The code returns that merge error wrapped with "Merge", which is not
the aggregated error list. -/
theorem C2_counterexample :
    loadingFailures collidingGeneratorsWorld sharedNameTarget (.ok [])
        = [Err.wrap (Err.msg "bad crd") "RegisterCRDs"]
      ∧ loadResMapFromBasesAndResources 0 collidingGeneratorsWorld sharedNameTarget
        = some (.ok [], [])
      ∧ loadCustomizedResMap 1 collidingGeneratorsWorld sharedNameTarget
        = some (.error (Err.wrap (DuplicateIdError (res "Generated" "shared" "").id) "Merge"),
            sharedNameTarget, [])
      ∧ Err.wrap (DuplicateIdError (res "Generated" "shared" "").id) "Merge"
        ≠ Err.multi (loadingFailures collidingGeneratorsWorld sharedNameTarget (.ok [])) :=
  ⟨rfl, rfl, rfl, by intro h; cases h⟩

/-- C3.  For every target whose loading sub-operations all succeed (bases and
resources with the collection `a`, CRD registration, both generators, patch
loading): `a` is the merge without override of the locally declared resources,
first, and the bases' resources, so `a` is the one list followed by the other
and no id occurs twice in it; `loadCustomizedResMap` hands to its transformer
phase the collection `mergeWithOverride(a, mergeWithoutOverride(configMaps,
secrets))`, and returns at once the error of either merge when one fails; in the
collection handed over every generated document is the one found under its id,
and an id that no generated document has keeps what `a` has for it. -/
theorem C3_accumulated_collection (n : Nat) (w : World) (kt : KustTarget)
    (a : ResMap) (evs : List Event) (cms secrets : ResMap) (patches : List Resource)
    (h0 : loadResMapFromBasesAndResources n w kt = some (.ok a, evs))
    (hcrd : (w.registerCRDs kt.ldr kt.kustomization.crds).2 = none)
    (hcms : w.newResMapFromConfigMapArgs kt.ldr kt.kustomization.configMapGenerator = .ok cms)
    (hsec : w.newResMapFromSecretArgs kt.ldr.root kt.kustomization.secretGenerator = .ok secrets)
    (hpat : w.newResourceSliceFromPatches kt.ldr
      (patchAppend kt.kustomization.patchesStrategicMerge kt.kustomization.patches)
        = .ok patches) :
    (∃ bases resources, loadCustomizedBases n w kt = some (bases, [], evs)
        ∧ w.newResMapFromFiles kt.ldr kt.kustomization.resources = .ok resources
        ∧ MergeWithoutOverride [resources, bases] = .ok a
        ∧ a = resources ++ bases ∧ (a.map (fun r => r.id)).Nodup)
      ∧ loadCustomizedResMap (n + 1) w kt = some (
          match MergeWithoutOverride [cms, secrets] with
          | .error err => (.error (Err.wrap err "Merge"), afterCRDs w kt, evs)
          | .ok g =>
            match MergeWithOverride w.validId a g with
            | .error err => (.error err, afterCRDs w kt, evs)
            | .ok m =>
              ((transformPhase w (afterLoading w kt) m patches).1, afterLoading w kt,
                evs ++ (transformPhase w (afterLoading w kt) m patches).2))
      ∧ (∀ g m, MergeWithoutOverride [cms, secrets] = .ok g →
          MergeWithOverride w.validId a g = .ok m →
          g = cms ++ secrets
            ∧ (∀ r ∈ g, lookupId m r.id = some r)
            ∧ (∀ id, (∀ r ∈ g, r.id ≠ id) → lookupId m id = lookupId a id)) := by
  obtain ⟨bases, resources, hb, hr, hm⟩ := loadResMapFromBasesAndResources_ok n w kt a evs h0
  obtain ⟨ha, hnd⟩ := MergeWithoutOverride_pair resources bases a hm
  refine ⟨⟨bases, resources, hb, hr, hm, ha, hnd⟩, ?_, ?_⟩
  · unfold loadResMapFromBasesAndResources at h0
    have hnone : loadingFailures w kt (.ok a) = [] := by
      simp [loadingFailures, entry, errOf, hcrd, hcms, hsec, hpat]
    simp only [loadCustomizedResMap, loadCustomizedResMapWith,
      loadPhaseWith_eq (loadCustomizedResMap n w) w kt (.ok a) evs h0, hcms, hsec, hpat,
      hnone, orNil, List.length_nil, gt_iff_lt, lt_self_iff_false, if_false]
    cases MergeWithoutOverride [cms, secrets] with
    | error e => rfl
    | ok g =>
      simp only []
      cases MergeWithOverride w.validId a g with
      | error e => rfl
      | ok m => rfl
  · intro g m hg hm1
    obtain ⟨hg1, hgnd⟩ := MergeWithoutOverride_pair cms secrets g hg
    obtain ⟨hkeep, hwin⟩ := MergeWithOverride_ok w.validId g a m hm1
    exact ⟨hg1, hwin hgnd, hkeep⟩

/-- C3, witness: the overlay `app` of the layered example.  Its resource
`svc.yaml` comes before what its bases resolve to; the base `base` brings a
ConfigMap `cfg`, the overlay generates one of the same id, and the generated
one is what the collection handed to the transformers holds. -/
theorem C3_accumulated_collection_witness :
    loadResMapFromBasesAndResources 2 layeredWorld overlayTarget
        = some (.ok (res "Deployment" "svc.yaml" "doc" :: overlayBases),
            eventsOf (loadResMapFromBasesAndResources 2 layeredWorld overlayTarget))
      ∧ lookupId (res "Deployment" "svc.yaml" "doc" :: overlayBases) (res "ConfigMap" "cfg" "").id
        = some (res "ConfigMap" "cfg" "cm+patch+ns+pre+lab+ann+json+img")
      ∧ MergeWithOverride layeredWorld.validId
          (res "Deployment" "svc.yaml" "doc" :: overlayBases) [res "ConfigMap" "cfg" "cm"]
        = .ok overlayMerged
      ∧ lookupId overlayMerged (res "ConfigMap" "cfg" "").id = some (res "ConfigMap" "cfg" "cm") :=
  ⟨rfl, rfl, rfl,
    ((C3_accumulated_collection 2 layeredWorld overlayTarget
        (res "Deployment" "svc.yaml" "doc" :: overlayBases)
        (eventsOf (loadResMapFromBasesAndResources 2 layeredWorld overlayTarget))
        [res "ConfigMap" "cfg" "cm"] [] [] rfl rfl rfl rfl rfl).2.2
      [res "ConfigMap" "cfg" "cm"] overlayMerged rfl rfl).2.1
      (res "ConfigMap" "cfg" "cm") (List.mem_singleton.mpr rfl)⟩

/-- C4.  For every finite base hierarchy, a successful `MakeCustomizedResMap`
on the root applies the reference-fixup transformers exactly once each, on the
root's fully assembled collection `m` (the result of the root's
`loadCustomizedResMap`), in the order name-hash, name-reference, variable
substitution, each on the result of the one before; every event of resolving
the levels (`evsLoad`, where all local pipelines run) comes before the first of
them, and nothing between or after them applies a transformer.  Resolving a
target with `loadCustomizedResMap`, as is done for every nested base, never
applies name-hash, name-reference or variable substitution.  With fuel for the
depth of the hierarchy `MakeCustomizedResMap` returns. -/
theorem C4_fixup_once_at_root (n : Nat) (w : World) (kt kt1 : KustTarget) (r : ResMap)
    (evs : List Event) (h : MakeCustomizedResMap n w kt = some (.ok r, kt1, evs)) :
    (∃ m evsLoad m1 evsVars m2 fref refVars,
        loadCustomizedResMap n w kt = some (.ok m, kt1, evsLoad)
          ∧ w.nameHashTransformer m = .ok m1
          ∧ w.newNameReferenceTransformer kt1.tcfg.nameReference = .ok fref
          ∧ fref m1 = .ok m2
          ∧ w.newRefVarTransformer refVars kt1.tcfg.varReference m2 = .ok r
          ∧ evs = evsLoad ++ [Event.transform kt.ldr TKind.nameHash m] ++ evsVars
              ++ [Event.transform kt.ldr TKind.nameReference m1,
                  Event.transform kt.ldr TKind.refVar m2]
          ∧ (∀ e ∈ evsLoad, e.isFixup = false)
          ∧ (∀ e ∈ evsVars, e.isTransform = false))
      ∧ (∀ (n1 : Nat) (b : KustTarget) (res : Resolved),
          loadCustomizedResMap n1 w b = some res → ∀ e ∈ res.2.2, e.isFixup = false)
      ∧ (∀ (n1 : Nat) (b : KustTarget), hierarchyWithin w n1 b.ldr b.kustomization = true →
          ∃ res, MakeCustomizedResMap n1 w b = some res) := by
  refine ⟨?_, ?_, fun n1 b hfin => MakeCustomizedResMap_total w n1 b hfin⟩
  · unfold MakeCustomizedResMap at h
    cases hl : loadCustomizedResMap n w kt with
    | none => simp [hl] at h
    | some x =>
      obtain ⟨rl, ktl, evsLoad⟩ := x
      cases rl with
      | error err => simp [hl] at h
      | ok m =>
        obtain ⟨hldr, hload⟩ := loadCustomizedResMap_events w n kt ktl (.ok m) evsLoad hl
        cases hres : resolveRefsToGeneratedResources n w ktl m with
        | none => simp [hl, hres] at h
        | some y =>
          obtain ⟨rr, evs1⟩ := y
          simp only [hl, hres, Option.some.injEq, Prod.mk.injEq] at h
          obtain ⟨h1, h2, h3⟩ := h
          subst h1 h2 h3
          obtain ⟨m1, evsVars, m2, fref, refVars, g1, g2, g3, g4, g5, g6⟩ :=
            resolveRefsToGeneratedResources_ok n w ktl m r evs1 hres
          refine ⟨m, evsLoad, m1, evsVars, m2, fref, refVars, rfl, g1, g2, g4, g5, ?_,
            fun e he => isLoading_not_fixup e (hload e he),
            fun e he => (resolveRefVars_events n w ktl m1 _ evsVars g3 e he).1⟩
          rw [g6, hldr]
          simp
  · intro n1 b res hb e he
    obtain ⟨rb, kb, evsb⟩ := res
    exact isLoading_not_fixup e ((loadCustomizedResMap_events w n1 b kb rb evsb hb).2 e he)

/-- C4, witness: the overlay of the layered example resolves; the transformers
applied are the local pipelines of `inner`, `base`, `other` and `app`, in this
order, and then name-hash, name-reference and variable substitution, once
each. -/
theorem C4_fixup_once_at_root_witness :
    MakeCustomizedResMap 3 layeredWorld overlayTarget
        = some (.ok overlayFinal, overlayTarget,
            resolvedEvents (MakeCustomizedResMap 3 layeredWorld overlayTarget))
      ∧ (appliedKinds (resolvedEvents (MakeCustomizedResMap 3 layeredWorld overlayTarget))).drop 28
        = [TKind.nameHash, TKind.nameReference, TKind.refVar]
      ∧ ((appliedKinds (resolvedEvents
          (MakeCustomizedResMap 3 layeredWorld overlayTarget))).take 28).all
            (fun k => !k.isFixup) = true
      ∧ ∀ e ∈ resolvedEvents (loadCustomizedResMap 3 layeredWorld overlayTarget),
          e.isFixup = false :=
  ⟨rfl, rfl, rfl,
    (C4_fixup_once_at_root 3 layeredWorld overlayTarget overlayTarget overlayFinal
      (resolvedEvents (MakeCustomizedResMap 3 layeredWorld overlayTarget)) rfl).2.1
      3 overlayTarget
      (.ok overlayLoaded, overlayTarget,
        resolvedEvents (loadCustomizedResMap 3 layeredWorld overlayTarget)) rfl⟩

/-- C5.  For every finite base hierarchy in which every base's loader and
manifest can be created, `getAllVars` on a target returns the post-order list
of vars: the concatenation, in declaration order of the bases, of each base's
own `getAllVars` result, followed by the target's own declared vars, each after
defaulting, in declaration order.  The list is exactly `postOrderVars`, so no
var is dropped or duplicated. -/
theorem C5_getAllVars_post_order (n : Nat) (w : World) (kt : KustTarget)
    (hall : allLoadable w n kt.ldr kt.kustomization = true) :
    ∃ evs, getAllVars n w kt
      = some (.ok (postOrderVars w n kt.ldr kt.kustomization), evs) := by
  induction n generalizing kt with
  | zero => simp [allLoadable] at hall
  | succ n ih =>
    have hnoerr : kt.kustomization.bases.filterMap (flatError w kt) = [] := by
      rw [List.filterMap_eq_nil_iff]
      intro path hp
      obtain ⟨l, k1, hl, hk, _⟩ := allLoadable_base w n kt.ldr kt.kustomization hall path hp
      simp [flatError, hl, NewKustTarget_of_load w l kt.tcfg k1 hk]
    have hflat : loadBasesAsFlatList w kt
        = .ok (kt.kustomization.bases.filterMap (flatTarget w kt)) := by
      simp [loadBasesAsFlatList, loadBasesAsFlatListLoop_eq, hnoerr]
    have hc : ∀ b ∈ kt.kustomization.bases.filterMap (flatTarget w kt),
        ∃ evs, getAllVars n w b = some (.ok (postOrderVars w n b.ldr b.kustomization), evs) := by
      intro b hb
      obtain ⟨path, hp, hpb⟩ := List.mem_filterMap.mp hb
      obtain ⟨l, k1, hl, hk, hsub⟩ := allLoadable_base w n kt.ldr kt.kustomization hall path hp
      simp only [flatTarget, hl, NewKustTarget_of_load w l kt.tcfg k1 hk,
        Option.some.injEq] at hpb
      subst hpb
      exact ih _ hsub
    obtain ⟨evs1, hloop⟩ := getAllVarsLoop_ok (getAllVars n w)
      (fun b => postOrderVars w n b.ldr b.kustomization) _ hc [] [] []
    refine ⟨evs1, ?_⟩
    simp only [getAllVars, getAllVarsWith, hflat, hloop, foldl_defaulting, List.nil_append,
      List.length_nil, gt_iff_lt, lt_self_iff_false, if_false, postOrderVars,
      flatTargets_postOrder]

/-- C5, witness: the overlay of the layered example.  The vars of `inner`
come first, then the var of `base`, then the var of `other` with its field path
defaulted, then the overlay's own var. -/
theorem C5_getAllVars_post_order_witness :
    allLoadable layeredWorld 3 overlayTarget.ldr overlayTarget.kustomization = true
      ∧ (getAllVars 3 layeredWorld overlayTarget).map Prod.fst
        = some (.ok [var "INNER" "Deployment" "db.yaml" "metadata.name",
            var "SVC" "Deployment" "deploy.yaml" "doc",
            var "DB" "Deployment" "job.yaml" "metadata.name",
            var "TOP" "Deployment" "svc.yaml" "doc"]) := by
  obtain ⟨evs, h⟩ := C5_getAllVars_post_order 3 layeredWorld overlayTarget rfl
  refine ⟨rfl, ?_⟩
  rw [h]
  rfl

/-- C6 (amended).  For every collection `m` and every var list obtained from
`getAllVars`, `resolveRefVars` returns, and it fails if and only if some var's
object reference is matched to one resource of `m` and reading that var's field
path on the resource fails.  Otherwise it succeeds with a name-to-value map
that binds each name to the value read for the last var of that name whose
resource was found, and has no binding for a name under which no var's resource
was found.  When the names of the vars are pairwise distinct this is the map
that binds each var whose resource was found to the value read at its field
path and has no binding for any var whose resource was not found. -/
theorem C6_resolveRefVars_bindings (n : Nat) (w : World) (kt : KustTarget) (m : ResMap)
    (vars : List Var) (evs : List Event)
    (hvars : getAllVars n w kt = some (.ok vars, evs)) :
    ∃ r evs1, resolveRefVars n w kt m = some (r, evs1)
      ∧ ((∃ e, r = .error e)
          ↔ ∃ v ∈ vars, ∃ x, w.demandOneMatchForId m (NewResId v) = some x
              ∧ ∃ e, w.getFieldValue x v.fieldPath = .error e)
      ∧ (∀ result, r = .ok result →
          (∀ name, mapGet result name = lastBinding w m vars name)
            ∧ ((vars.map (fun v => v.name)).Nodup →
                (∀ v ∈ vars, ∀ x, w.demandOneMatchForId m (NewResId v) = some x →
                    ∃ s, w.getFieldValue x v.fieldPath = .ok s
                      ∧ mapGet result v.name = some s)
                  ∧ (∀ v ∈ vars, w.demandOneMatchForId m (NewResId v) = none →
                      mapGet result v.name = none))) := by
  refine ⟨(resolveRefVarsLoop w m vars [] evs).1, (resolveRefVarsLoop w m vars [] evs).2,
    by simp [resolveRefVars, hvars], resolveRefVarsLoop_error_iff w m vars [] evs, ?_⟩
  intro result hr
  have hget : ∀ name, mapGet result name = lastBinding w m vars name := by
    intro name
    rw [resolveRefVarsLoop_ok w m vars [] evs result hr name]
    cases lastBinding w m vars name <;> simp [mapGet]
  refine ⟨hget, fun hnd => ⟨?_, ?_⟩⟩
  · intro v hv x hx
    cases hg : w.getFieldValue x v.fieldPath with
    | error e =>
      have herr := (resolveRefVarsLoop_error_iff w m vars [] evs).mpr ⟨v, hv, x, hx, e, hg⟩
      rw [hr] at herr
      obtain ⟨e1, he1⟩ := herr
      cases he1
    | ok s =>
      refine ⟨s, rfl, ?_⟩
      rw [hget, lastBinding_distinct w m vars hnd v hv]
      simp [varValue, hx, hg]
  · intro v hv hx
    rw [hget, lastBinding_distinct w m vars hnd v hv]
    simp [varValue, hx]

/-- C6, witness: the var `A` is on the service `a`, which the collection has,
and the var `C` on a service `c`, which it has not; the map binds `A` to the
value read on `a` and has no binding for `C`. -/
theorem C6_resolveRefVars_bindings_witness :
    resolveRefVars 1 quietWorld distinctVarsTarget twoServices
        = some (.ok [("A", "10.0.0.1")], [Event.info "couldn't resolve v: C"])
      ∧ mapGet [("A", "10.0.0.1")] "A" = some "10.0.0.1"
      ∧ mapGet [("A", "10.0.0.1")] "C" = none := by
  obtain ⟨r, evs1, h, _, hok⟩ :=
    C6_resolveRefVars_bindings 1 quietWorld distinctVarsTarget twoServices
      [var "A" "Service" "a" "doc", var "C" "Service" "c" "doc"] [] rfl
  have h1 : some (r, evs1) = some ((.ok [("A", "10.0.0.1")],
      [Event.info "couldn't resolve v: C"]) : Except Err StrMap × List Event) :=
    h.symm.trans rfl
  cases h1
  obtain ⟨hget, _⟩ := hok _ rfl
  exact ⟨rfl, (hget "A").trans rfl, (hget "C").trans rfl⟩

/-- C6, counterexample.  The two vars of `twoVarsTarget` are both named `X`;
both resources are found and both fields are read, `10.0.0.1` for the first var
and `10.0.0.2` for the second.  `resolveRefVars` succeeds with a map that binds
`X` to `10.0.0.2`: the first var, whose resource was found, is not bound to the
value read at its field path. -/
theorem C6_counterexample :
    getAllVars 1 quietWorld twoVarsTarget
        = some (.ok [var "X" "Service" "a" "doc", var "X" "Service" "b" "doc"], [])
      ∧ quietWorld.demandOneMatchForId twoServices (NewResId (var "X" "Service" "a" "doc"))
        = some (res "Service" "a" "10.0.0.1")
      ∧ quietWorld.getFieldValue (res "Service" "a" "10.0.0.1") "doc" = .ok "10.0.0.1"
      ∧ resolveRefVars 1 quietWorld twoVarsTarget twoServices
        = some (.ok [("X", "10.0.0.2")], [])
      ∧ mapGet [("X", "10.0.0.2")] (var "X" "Service" "a" "doc").name ≠ some "10.0.0.1" :=
  ⟨rfl, rfl, rfl, rfl, by decide⟩

/-- C7.  For every list of declared bases (of a target whose hierarchy is within
the fuel), `loadCustomizedBases` returns, and the aggregated error it returns
is: for each declared base, in declaration order, the wrapped entry of that
base if it failed (loader creation, manifest loading, or its own resolution),
whatever happened to the bases before it; followed by the entry "Merge failed"
when merging the resolved bases fails.  So every failing base has its entry in
the aggregated error. -/
theorem C7_every_base_attempted (n : Nat) (w : World) (kt : KustTarget)
    (hfin : hierarchyWithin w (n + 1) kt.ldr kt.kustomization = true) :
    ∃ result errs evs, loadCustomizedBases n w kt = some (result, errs, evs)
      ∧ errs = kt.kustomization.bases.filterMap (baseFailure n w kt)
          ++ entry (errOf (MergeWithoutOverride
              (kt.kustomization.bases.filterMap (baseSuccess n w kt)))) "Merge failed"
      ∧ (∀ path ∈ kt.kustomization.bases, ∀ e, baseFailure n w kt path = some e → e ∈ errs)
      ∧ result = orNil (MergeWithoutOverride
          (kt.kustomization.bases.filterMap (baseSuccess n w kt))) := by
  obtain ⟨⟨list, errs0, evs0⟩, hloop⟩ :=
    loadCustomizedBasesLoop_total (loadCustomizedResMap n w) w kt kt.kustomization.bases
      (hierarchyWithin_resolves w n kt hfin) [] [] []
  have hb := loadCustomizedBasesWith_eq (loadCustomizedResMap n w) w kt list errs0 evs0 hloop
  obtain ⟨h1, h2, _⟩ := loadCustomizedBasesWith_closed (loadCustomizedResMap n w) w kt _ _ _ hb
  refine ⟨_, _, _, hb, h2, ?_, h1⟩
  intro path hp e he
  rw [h2]
  exact List.mem_append_left _ (List.mem_filterMap.mpr ⟨path, hp, he⟩)

/-- C7, witness: the parent `app` over `missing` (no manifest), `other`
(resolves) and `dup` (its resource list names one file twice).  Both failing
bases have their entry in the aggregated error, in declaration order. -/
theorem C7_every_base_attempted_witness :
    hierarchyWithin layeredWorld 2 failingBasesTarget.ldr failingBasesTarget.kustomization = true
      ∧ (loadCustomizedBases 1 layeredWorld failingBasesTarget).map (fun r => r.2.1)
        = some [Err.wrap (Err.msg "no kustomization.yaml") "couldn't make target for missing",
            Err.wrap (Err.multi
              [Err.wrap (DuplicateIdError (res "Deployment" "a.yaml" "").id)
                "loadResMapFromBasesAndResources"]) "SemiResources"] := by
  obtain ⟨result, errs, evs, h, herrs, _, _⟩ :=
    C7_every_base_attempted 1 layeredWorld failingBasesTarget rfl
  refine ⟨rfl, ?_⟩
  rw [h]
  exact congrArg some (herrs.trans rfl)

/-- C8, the code at a failing input.  The parent `app` declares the bases
`missing`, `other` and `dup`; the loader of each of the three is created.  The
manifest of `missing` cannot be loaded and the resolution of `dup` fails, and
their loaders are never cleaned up: the loop cleans up the loader of `other`
only, the one base that resolved.  `RunBuild` on the same directory `missing`
does clean up the loader when the manifest cannot be loaded (its cleanup is
deferred). -/
theorem C8_cleanup_skipped_when_base_fails :
    layeredWorld.ldrNew failingBasesTarget.ldr "missing" = .ok { root := "app/missing" }
      ∧ layeredWorld.ldrNew failingBasesTarget.ldr "other" = .ok { root := "app/other" }
      ∧ layeredWorld.ldrNew failingBasesTarget.ldr "dup" = .ok { root := "app/dup" }
      ∧ (loadCustomizedBases 1 layeredWorld failingBasesTarget).map (fun r => cleanups r.2.2)
        = some [{ root := "app/other" }]
      ∧ RunBuild 1 layeredWorld
          { kustomizationPath := "app/missing", outputPath := "", transformerconfigPaths := [] }
        = some (Outcome.returned (some (Err.msg "no kustomization.yaml")),
            [Event.cleanup { root := "app/missing" }]) :=
  ⟨rfl, rfl, rfl, rfl, rfl⟩

/-- C9.  For every run of `RunBuild` in which loader creation, target creation,
resolution or encoding fails, `RunBuild` returns that error and writes nothing,
neither to the output stream nor to the file system; when all of them succeed
it writes the encoded collection exactly once, to the output path alone if one
is set and otherwise to the output stream alone.  (The target is created once
`makeTransformerconfig` has returned; when that call ends the process instead,
nothing has been written either.  With fuel for the depth of the hierarchy the
run returns.) -/
theorem C9_RunBuild_writes_once_or_never (n : Nat) (w : World) (o : buildOptions) :
    (∀ e, w.newLoader o.kustomizationPath = .error e →
        RunBuild n w o = some (Outcome.returned (some e), []))
      ∧ (∀ rootLoader ctx err, w.newLoader o.kustomizationPath = .ok rootLoader →
          makeTransformerconfig w o.transformerconfigPaths = Outcome.fatal ctx err →
          RunBuild n w o = some (Outcome.fatal ctx err, []))
      ∧ (∀ rootLoader tcfg, w.newLoader o.kustomizationPath = .ok rootLoader →
          makeTransformerconfig w o.transformerconfigPaths = Outcome.returned tcfg →
          (∀ e, NewKustTarget w rootLoader tcfg = .error e →
              ∃ evs, RunBuild n w o = some (Outcome.returned (some e), evs) ∧ writes evs = [])
            ∧ (∀ target, NewKustTarget w rootLoader tcfg = .ok target →
                (hierarchyWithin w n target.ldr target.kustomization = true →
                    ∃ res, RunBuild n w o = some res)
                  ∧ (∀ e kt1 evs1, MakeCustomizedResMap n w target = some (.error e, kt1, evs1) →
                    ∃ evs, RunBuild n w o = some (Outcome.returned (some e), evs)
                      ∧ writes evs = [])
                  ∧ (∀ allResources kt1 evs1,
                      MakeCustomizedResMap n w target = some (.ok allResources, kt1, evs1) →
                      (∀ e, w.encodeAsYaml allResources = .error e →
                          ∃ evs, RunBuild n w o = some (Outcome.returned (some e), evs)
                            ∧ writes evs = [])
                        ∧ (∀ res, w.encodeAsYaml allResources = .ok res →
                            ∃ evs, RunBuild n w o
                                = some (Outcome.returned
                                    (if o.outputPath ≠ "" then w.writeFile o.outputPath res
                                      else w.outWrite res), evs)
                              ∧ writes evs
                                = [if o.outputPath ≠ "" then Event.writeFile o.outputPath res
                                    else Event.outWrite res])))) := by
  refine ⟨fun e he => by simp [RunBuild, he],
    fun rootLoader ctx err hl hf => by simp [RunBuild, hl, hf], ?_⟩
  intro rootLoader tcfg hl htc
  constructor
  · intro e he
    exact ⟨[Event.cleanup rootLoader], by simp [RunBuild, hl, htc, he],
      by simp [writes, Event.isWrite]⟩
  intro target ht
  refine ⟨?_, ?_, ?_⟩
  · intro hfin
    obtain ⟨⟨r, kt1, evs1⟩, hm⟩ := MakeCustomizedResMap_total w n target hfin
    cases r with
    | error e =>
      exact ⟨(Outcome.returned (some e), evs1 ++ [Event.cleanup rootLoader]),
        by simp [RunBuild, hl, htc, ht, hm]⟩
    | ok m =>
      cases hres : w.encodeAsYaml m with
      | error e =>
        exact ⟨(Outcome.returned (some e), evs1 ++ [Event.cleanup rootLoader]),
          by simp [RunBuild, hl, htc, ht, hm, hres]⟩
      | ok res =>
        by_cases hout : o.outputPath = ""
        · exact ⟨(Outcome.returned (w.outWrite res),
              evs1 ++ [Event.outWrite res, Event.cleanup rootLoader]),
            by simp [RunBuild, hl, htc, ht, hm, hres, hout]⟩
        · exact ⟨(Outcome.returned (w.writeFile o.outputPath res),
              evs1 ++ [Event.writeFile o.outputPath res, Event.cleanup rootLoader]),
            by simp [RunBuild, hl, htc, ht, hm, hres, hout]⟩
  · intro e kt1 evs1 hm
    refine ⟨evs1 ++ [Event.cleanup rootLoader], by simp [RunBuild, hl, htc, ht, hm], ?_⟩
    rw [writes_append, MakeCustomizedResMap_no_write n w target kt1 _ evs1 hm]
    simp [writes, Event.isWrite]
  · intro allResources kt1 evs1 hm
    have hnw := MakeCustomizedResMap_no_write n w target kt1 _ evs1 hm
    constructor
    · intro e he
      refine ⟨evs1 ++ [Event.cleanup rootLoader],
        by simp [RunBuild, hl, htc, ht, hm, he], ?_⟩
      rw [writes_append, hnw]
      simp [writes, Event.isWrite]
    · intro res hres
      by_cases hout : o.outputPath = ""
      · refine ⟨evs1 ++ [Event.outWrite res, Event.cleanup rootLoader],
          by simp [RunBuild, hl, htc, ht, hm, hres, hout], ?_⟩
        rw [writes_append, hnw]
        simp [writes, Event.isWrite, hout]
      · refine ⟨evs1 ++ [Event.writeFile o.outputPath res, Event.cleanup rootLoader],
          by simp [RunBuild, hl, htc, ht, hm, hres, hout], ?_⟩
        rw [writes_append, hnw]
        simp [writes, Event.isWrite, hout]

/-- C9, witness: building `app` with the output path `out.yaml` set.  All four
steps succeed, and the one write of the run is the encoded collection, to
`out.yaml`. -/
theorem C9_RunBuild_writes_once_or_never_witness :
    ∃ evs, RunBuild 1 appWorld appToFileOptions = some (Outcome.returned none, evs)
      ∧ writes evs
        = [Event.writeFile "out.yaml"
            "deploy.yaml:doc+patch+ns+pre+lab+ann+json+img+hash+ref+var;"] :=
  ((((C9_RunBuild_writes_once_or_never 1 appWorld appToFileOptions).2.2
      { root := "app" } emptyConfig rfl rfl).2 appTarget rfl).2.2
      [res "Deployment" "deploy.yaml" "doc+patch+ns+pre+lab+ann+json+img+hash+ref+var"]
      appTarget (resolvedEvents (MakeCustomizedResMap 1 appWorld appTarget)) rfl).2
    "deploy.yaml:doc+patch+ns+pre+lab+ann+json+img+hash+ref+var;" rfl

/-- C10, the code at a failing input.  Without a path argument `Validate`
returns before it reads the transformer-config flag: whatever the flag `p` is,
the transformer-config paths stay as they were, and with the fresh options of
`newCmdBuild` the build then takes the built-in default configuration.  With
one path argument the same flag is recorded. -/
theorem C10_flag_dropped_without_argument :
    (∀ (w : World) (o : buildOptions) (p : String),
        Validate w o [] p = (none, { o with kustomizationPath := "./" }))
      ∧ Validate quietWorld
          { kustomizationPath := "", outputPath := "", transformerconfigPaths := [] }
          [] "a.yaml,b.yaml"
        = (none, { kustomizationPath := "./", outputPath := "", transformerconfigPaths := [] })
      ∧ (∀ (w : World) (o : buildOptions) (a p : String), p ≠ "" → w.isDir p = false →
          Validate w o [a] p
            = (none, { o with kustomizationPath := a, transformerconfigPaths := p.splitOn "," }))
      ∧ (∃ t, makeTransformerconfig quietWorld [] = Outcome.returned t
          ∧ t = quietWorld.makeDefaultTransformerConfig) :=
  ⟨fun _ _ _ => rfl, rfl, fun w o a p hp hd => by simp [Validate, hp, hd], ⟨_, rfl, rfl⟩⟩

end Kustomize
